import Mathlib

/-!
Verification development for the Tissue Forge vertex-solver mesh core
(`source/models/vertex/solver/tfMesh.cpp` and the constraint actors
`tfConvexPolygonConstraint.cpp`, `tfSurfaceAreaConstraint.cpp`).

The embedding is shallow and executable:
* scalar quantities (`float`/`FloatP_t`) are modelled by exact rationals;
* C++ heap objects are named by naturals; a mesh state carries a heap
  `Nat → MObj` together with the four per-variant inventories and
  available-id sets of `Mesh`;
* `HRESULT` is modelled by `Int` with `S_OK = 0` and a nonzero `E_FAIL`;
* fallible routines return their `HRESULT` (or an `Option` result)
  together with the successor state;
* the unbounded child-removal recursion of `Mesh::removeObj` and the
  parent recursion of `Mesh::add(Structure*)` are given an explicit fuel
  parameter; fuel exhaustion returns `E_FAIL` without further mutation.

Methods of `Vertex`/`Surface`/`Body` whose definitions are not part of the
given sources (`tfVertex.cpp`, `tfSurface.cpp`, `tfBody.cpp` are absent)
are modelled from the specification; each such definition says so in its
doc comment.
-/

/-- Exact 3-vector over the rationals, standing in for `FVector3`. -/
structure Vec3 where
  x : Rat
  y : Rat
  z : Rat
deriving DecidableEq, Repr

def Vec3.zero : Vec3 := ⟨0, 0, 0⟩

def Vec3.add (a b : Vec3) : Vec3 := ⟨a.x + b.x, a.y + b.y, a.z + b.z⟩

def Vec3.sub (a b : Vec3) : Vec3 := ⟨a.x - b.x, a.y - b.y, a.z - b.z⟩

def Vec3.neg (a : Vec3) : Vec3 := ⟨-a.x, -a.y, -a.z⟩

def Vec3.smul (c : Rat) (a : Vec3) : Vec3 := ⟨c * a.x, c * a.y, c * a.z⟩

def Vec3.dot (a b : Vec3) : Rat := a.x * b.x + a.y * b.y + a.z * b.z

def Vec3.cross (a b : Vec3) : Vec3 :=
  ⟨a.y * b.z - a.z * b.y, a.z * b.x - a.x * b.z, a.x * b.y - a.y * b.x⟩

/-- `FVector3::length()` squared; used to render Euclidean comparisons
exactly over the rationals. -/
def Vec3.lengthSq (a : Vec3) : Rat := a.dot a

instance : Add Vec3 := ⟨Vec3.add⟩

instance : Sub Vec3 := ⟨Vec3.sub⟩

instance : Neg Vec3 := ⟨Vec3.neg⟩

instance : SMul Rat Vec3 := ⟨Vec3.smul⟩

/-- `FVector3::isZero()`. -/
def Vec3.isZero (a : Vec3) : Bool := a = Vec3.zero

/-- Modelled from the spec (the port header defining `HRESULT` values is
not among the given sources): `S_OK` is the zero status code. -/
def S_OK : Int := 0

/-- Modelled from the spec: `E_FAIL` is a nonzero failure status code
(the standard COM value `0x80004005`). -/
def E_FAIL : Int := 0x80004005

/-- The C++ literal `NULL`, as the integer it converts to when returned
from a routine typed `HRESULT`.  The spec calls out exactly this
conversion for `Mesh_surfaceOutwardNormal`. -/
def NULLH : Int := 0

/-- `MeshObj::Type`: the four object variants. -/
inductive MKind where
  | vertex
  | surface
  | body
  | struct
deriving DecidableEq, Repr

/-- A mesh object (`MeshObj` and its variants, flattened).

* `objId`/`inMesh` are the identifier and the back-reference to the
  (single) owning mesh;
* `pos` and `mass` model the particle of a `Vertex`;
* `parents`/`children` are the ordered relation lists: for a `Surface`,
  `parents` is its cyclically ordered boundary vertex list
  (`Surface::vertices`); for a `Vertex`, `children` is its surface list
  (`Vertex::surfaces`); for a `Body`, `parents` is its surface list;
* `b1`/`b2` are the up-to-two owning bodies of a `Surface`;
* `valid` is the result of the variant-specific `validate()` capability,
  whose definition is external to the given sources. -/
structure MObj where
  kind : MKind
  objId : Int
  inMesh : Bool
  pos : Vec3
  mass : Rat
  valid : Bool
  parents : List Nat
  children : List Nat
  b1 : Option Nat
  b2 : Option Nat
deriving DecidableEq, Repr

/-- A default, fully unregistered object. -/
def MObj.blank : MObj :=
  { kind := .vertex, objId := -1, inMesh := false, pos := Vec3.zero, mass := 1,
    valid := true, parents := [], children := [], b1 := none, b2 := none }

/-- The mesh state: a heap of named objects, a fresh-name counter for
objects the editing operations construct, the four inventories (slot
arrays of object names) and available-id sets, the dirty flag, and the
attached-solver flags (the solver itself is an external collaborator;
only the signals the mesh sends it are modelled). -/
structure Mesh where
  heap : Nat → MObj
  nextName : Nat
  inv : MKind → List (Option Nat)
  avail : MKind → Finset Nat
  isDirty : Bool
  hasSolver : Bool
  solverDirty : Bool

/-- The empty mesh over an initial heap. -/
def Mesh.init (heap0 : Nat → MObj) : Mesh :=
  { heap := heap0, nextName := 0, inv := fun _ => [], avail := fun _ => ∅,
    isDirty := false, hasSolver := false, solverDirty := false }

/-- Read one object. -/
def Mesh.obj (st : Mesh) (n : Nat) : MObj := st.heap n

/-- Update one object in the heap. -/
def Mesh.setObj (st : Mesh) (n : Nat) (o : MObj) : Mesh :=
  { st with heap := Function.update st.heap n o }

/-- `Mesh_checkUnstoredObj` (the null-pointer argument case is not
modelled: object arguments are heap names, which always denote). -/
def Mesh_checkUnstoredObj (st : Mesh) (n : Nat) : Int :=
  if 0 ≤ (st.obj n).objId ∨ (st.obj n).inMesh then E_FAIL else S_OK

/-- `Mesh_checkStoredObj(obj, mesh)`: in the single-mesh world,
`obj->mesh == NULL || obj->mesh != mesh` collapses to `¬ inMesh`. -/
def Mesh_checkStoredObj (st : Mesh) (n : Nat) : Int :=
  if (st.obj n).objId < 0 ∨ (st.obj n).inMesh = false then E_FAIL else S_OK

/-- Modelled from the spec: the fixed block increment `TFMESHINV_INCR`
by which an inventory grows (its numeric value lives in `tfMesh.h`,
which is not among the given sources; only positivity matters). -/
def TFMESHINV_INCR : Nat := 100

/-- `Mesh_invIdAndAlloc(inv, availIds, obj)` with a non-null `obj`:
allocate the smallest available id if any, else grow the inventory by
`TFMESHINV_INCR`, storing `obj` in the first new slot and marking the
rest available.  Returns the id and the updated slot array and
available-id set; the caller records the id in the object. -/
def Mesh_invIdAndAlloc (inv : List (Option Nat)) (avail : Finset Nat) (n : Nat) :
    Nat × List (Option Nat) × Finset Nat :=
  if h : avail.Nonempty then
    let objId := avail.min' h
    (objId, inv.set objId (some n), avail.erase objId)
  else
    let res := inv.length
    (res, inv ++ (some n :: List.replicate (TFMESHINV_INCR - 1) none),
      Finset.Ico (res + 1) (res + TFMESHINV_INCR))

/-- `Mesh_addObj(mesh, inv, availIds, obj, solver)`: check the object is
unstored and validates, allocate its identifier, set its back-reference,
and (if a solver is attached) emit a Create log, which is external and
has no modelled effect. -/
def Mesh_addObj (st : Mesh) (k : MKind) (n : Nat) : Int × Mesh :=
  if Mesh_checkUnstoredObj st n ≠ S_OK ∨ (st.obj n).valid = false then
    (E_FAIL, st)
  else
    let r := Mesh_invIdAndAlloc (st.inv k) (st.avail k) n
    let st1 : Mesh :=
      { st with inv := Function.update st.inv k r.2.1,
                avail := Function.update st.avail k r.2.2 }
    (S_OK, st1.setObj n { st1.obj n with objId := (r.1 : Int), inMesh := true })

/-- `Mesh::add(Vertex*)`: set the dirty flag, forward `setDirty` to the
solver when attached, then store the vertex. -/
def Mesh.addVertex (st : Mesh) (n : Nat) : Int × Mesh :=
  let st1 : Mesh :=
    { st with isDirty := true, solverDirty := st.hasSolver || st.solverDirty }
  Mesh_addObj st1 .vertex n

/-- The vertex loop of `Mesh::add(Surface*)`: add every boundary vertex
that is not yet registered, failing as soon as one add fails. -/
def addSurfaceVerts : Mesh → List Nat → Int × Mesh
  | st, [] => (S_OK, st)
  | st, v :: rest =>
    if (st.obj v).objId < 0 then
      let r := st.addVertex v
      if r.1 ≠ S_OK then (E_FAIL, r.2) else addSurfaceVerts r.2 rest
    else addSurfaceVerts st rest

/-- `Mesh::add(Surface*)`: set the dirty flag, add unregistered boundary
vertices, then store the surface. -/
def Mesh.addSurface (st : Mesh) (n : Nat) : Int × Mesh :=
  let st1 : Mesh := { st with isDirty := true }
  let r := addSurfaceVerts st1 (st1.obj n).parents
  if r.1 ≠ S_OK then (E_FAIL, r.2)
  else
    let r2 := Mesh_addObj r.2 .surface n
    if r2.1 ≠ S_OK then (E_FAIL, r2.2) else (S_OK, r2.2)

/-- The surface loop of `Mesh::add(Body*)`. -/
def addBodySurfs : Mesh → List Nat → Int × Mesh
  | st, [] => (S_OK, st)
  | st, s :: rest =>
    if (st.obj s).objId < 0 then
      let r := st.addSurface s
      if r.1 ≠ S_OK then (E_FAIL, r.2) else addBodySurfs r.2 rest
    else addBodySurfs st rest

/-- `Mesh::add(Body*)`. -/
def Mesh.addBody (st : Mesh) (n : Nat) : Int × Mesh :=
  let st1 : Mesh := { st with isDirty := true }
  let r := addBodySurfs st1 (st1.obj n).parents
  if r.1 ≠ S_OK then (E_FAIL, r.2)
  else
    let r2 := Mesh_addObj r.2 .body n
    if r2.1 ≠ S_OK then (E_FAIL, r2.2) else (S_OK, r2.2)

/-- The parent loop of `Mesh::add(Structure*)`: registered parents are
skipped; `Structure` parents are added through the recursive overload
(`recf`), `Body` parents through `addBody`; a parent of any other kind
is the "could not determine type" failure. -/
def addStructParents (recf : Mesh → Nat → Int × Mesh) :
    Mesh → List Nat → Int × Mesh
  | st, [] => (S_OK, st)
  | st, p :: rest =>
    if 0 ≤ (st.obj p).objId then addStructParents recf st rest
    else if (st.obj p).kind = .struct then
      let r := recf st p
      if r.1 ≠ S_OK then (E_FAIL, r.2) else addStructParents recf r.2 rest
    else if (st.obj p).kind = .body then
      let r := st.addBody p
      if r.1 ≠ S_OK then (E_FAIL, r.2) else addStructParents recf r.2 rest
    else (E_FAIL, st)

/-- `Mesh::add(Structure*)`, with fuel bounding the parent recursion. -/
def Mesh.addStructure : Nat → Mesh → Nat → Int × Mesh
  | 0, st, _ => (E_FAIL, st)
  | fuel + 1, st, n =>
    let st1 : Mesh := { st with isDirty := true }
    let r := addStructParents (fun s m => Mesh.addStructure fuel s m) st1 (st1.obj n).parents
    if r.1 ≠ S_OK then (E_FAIL, r.2)
    else
      let r2 := Mesh_addObj r.2 .struct n
      if r2.1 ≠ S_OK then (E_FAIL, r2.2) else (S_OK, r2.2)

/-- The child loop at the end of `Mesh::removeObj`: recursively remove
every current child, failing as soon as one removal fails. -/
def removeChildren (recf : Mesh → Nat → Int × Mesh) :
    Mesh → List Nat → Int × Mesh
  | st, [] => (S_OK, st)
  | st, c :: rest =>
    let r := recf st c
    if r.1 ≠ S_OK then (E_FAIL, r.2) else removeChildren recf r.2 rest

/-- `Mesh::removeObj`: set the dirty flag, check the object is stored in
this mesh and its identifier is within the inventory bounds of its
variant, null the slot, return the identifier to the available set, emit
the Destroy log (external), clear the object's identifier and
back-reference, then recursively remove its current children (fuel bounds
the recursion). -/
def Mesh.removeObj : Nat → Mesh → Nat → Int × Mesh
  | 0, st, _ => (E_FAIL, st)
  | fuel + 1, st, n =>
    let st1 : Mesh := { st with isDirty := true }
    if Mesh_checkStoredObj st1 n ≠ S_OK then (E_FAIL, st1)
    else
      let k := (st1.obj n).kind
      let i := (st1.obj n).objId.toNat
      if (st1.inv k).length ≤ i then (E_FAIL, st1)
      else
        let st2 : Mesh :=
          { st1 with inv := Function.update st1.inv k ((st1.inv k).set i none),
                     avail := Function.update st1.avail k (insert i (st1.avail k)) }
        let st3 := st2.setObj n { st2.obj n with objId := -1, inMesh := false }
        removeChildren (fun s m => Mesh.removeObj fuel s m) st3 (st3.obj n).children

/-- The `TF_MESH_GETPART` macro behind `Mesh::getVertex` and friends:
out-of-bounds indices yield null; in-bounds indices yield the slot
content (which may itself be null). -/
def Mesh.getPart (st : Mesh) (k : MKind) (idx : Nat) : Option Nat :=
  if idx < (st.inv k).length then (st.inv k).getD idx none else none

def Mesh.getVertex (st : Mesh) (idx : Nat) : Option Nat := st.getPart .vertex idx

def Mesh.getSurface (st : Mesh) (idx : Nat) : Option Nat := st.getPart .surface idx

def Mesh.getBody (st : Mesh) (idx : Nat) : Option Nat := st.getPart .body idx

def Mesh.getStructure (st : Mesh) (idx : Nat) : Option Nat := st.getPart .struct idx

/-- The loop condition of `Mesh::findVertex`: modelled from the spec,
`particle()->relativePosition(pos).length() <= tol` compares the
Euclidean distance between the vertex position and `pos` against `tol`;
rendered exactly as `0 ≤ tol ∧ dist² ≤ tol²`. -/
def vertexWithin (st : Mesh) (n : Nat) (p : Vec3) (tol : Rat) : Bool :=
  decide (0 ≤ tol) && decide (Vec3.lengthSq (Vec3.sub (st.obj n).pos p) ≤ tol * tol)

/-- The traversal of `Mesh::findVertex`: every slot is dereferenced in
turn, so reaching a null (recycled) slot is a null-pointer dereference,
modelled as `Except.error`. -/
def findVertexAux (st : Mesh) (p : Vec3) (tol : Rat) :
    List (Option Nat) → Except Unit (Option Nat)
  | [] => .ok none
  | none :: _ => .error ()
  | some n :: rest =>
    if vertexWithin st n p tol then .ok (some n) else findVertexAux st p tol rest

/-- `Mesh::findVertex`. -/
def Mesh.findVertex (st : Mesh) (p : Vec3) (tol : Rat) : Except Unit (Option Nat) :=
  findVertexAux st p tol (st.inv .vertex)

/-! ## Editing operations (`tfMesh.cpp`, mesh editing section) -/

/-- The inner scan of `Mesh::insert(Vertex*, Vertex*, Vertex*)`: the first
boundary index at which `v1` and `v2` are cyclically adjacent in either
order (`nidx` is `idx+1`, wrapped). -/
def findAdjPair (v1 v2 : Nat) (verts : List Nat) : Option Nat :=
  (List.range verts.length).find? (fun idx =>
    let a := verts.getD idx 0
    let b := verts.getD ((idx + 1) % verts.length) 0
    decide ((a = v1 ∧ b = v2) ∨ (a = v2 ∧ b = v1)))

/-- One iteration of the surface loop of `Mesh::insert`: when the edge is
found, splice `toInsert` right after it (`vitr+1 == end` inserts at the
front) and record the surface as a child of `toInsert`. -/
def insertIntoSurf (st : Mesh) (toInsert v1 v2 s : Nat) : Mesh :=
  let verts := (st.obj s).parents
  match findAdjPair v1 v2 verts with
  | none => st
  | some idx =>
    let verts2 := if idx + 1 = verts.length then toInsert :: verts
                  else verts.take (idx + 1) ++ toInsert :: verts.drop (idx + 1)
    let st1 := st.setObj s { st.obj s with parents := verts2 }
    st1.setObj toInsert
      { st1.obj toInsert with children := (st1.obj toInsert).children ++ [s] }

/-- `Mesh::insert(toInsert, v1, v2)`: splice `toInsert` into every surface
of `v1` on which `v1` and `v2` are cyclically adjacent, then add it
(solver notifications are external no-ops). -/
def Mesh.insertVert (st : Mesh) (toInsert v1 v2 : Nat) : Int × Mesh :=
  let st1 := ((st.obj v1).children).foldl
    (fun acc s => insertIntoSurf acc toInsert v1 v2 s) st
  let r := st1.addVertex toInsert
  if r.1 ≠ S_OK then (E_FAIL, r.2) else (S_OK, r.2)

/-- The connected-surface gathering loop of
`Mesh::replace(Vertex*, Surface*)`, verbatim: a surface is appended only
when `std::find` over the accumulator succeeds (`!= end()`), i.e. only
when it is already present. -/
def gatherConnectedSurfaces (st : Mesh) (toReplace : Nat) : List Nat :=
  ((st.obj toReplace).parents).foldl (fun acc v =>
    ((st.obj v).children).foldl (fun acc2 s =>
      if s ≠ toReplace ∧ s ∈ acc2 then acc2 ++ [s] else acc2) acc) []

/-- Run numbering behind `contiguousEdgeLabels`: 0 for an unshared
vertex, otherwise the ordinal (from 1) of its contiguous shared run. -/
def runLabels : List Bool → Nat → Bool → List Nat
  | [], _, _ => []
  | b :: rest, cnt, prev =>
    if b then (if prev then cnt else cnt + 1) ::
      runLabels rest (if prev then cnt else cnt + 1) true
    else 0 :: runLabels rest cnt false

/-- Modelled from the spec: `Surface::contiguousEdgeLabels(other)` labels
every boundary vertex of the surface with 0 when it is not shared with
`other` and otherwise with the ordinal of its contiguous run of shared
vertices (its definition lives in `tfSurface.cpp`, absent from the given
sources). -/
def contiguousEdgeLabels (st : Mesh) (s other : Nat) : List Nat :=
  runLabels (((st.obj s).parents).map (fun v =>
    decide (v ∈ (st.obj other).parents))) 0 false

/-- Modelled from the spec: `MeshObj::removeChild` — erase the first
occurrence, failing when absent. -/
def eraseChildLink (st : Mesh) (parent child : Nat) : Int × Mesh :=
  if child ∈ (st.obj parent).children then
    (S_OK, st.setObj parent
      { st.obj parent with children := (st.obj parent).children.erase child })
  else (E_FAIL, st)

/-- Modelled from the spec: `MeshObj::removeParent` — erase the first
occurrence, failing when absent. -/
def eraseParentLink (st : Mesh) (child parent : Nat) : Int × Mesh :=
  if parent ∈ (st.obj child).parents then
    (S_OK, st.setObj child
      { st.obj child with parents := (st.obj child).parents.erase parent })
  else (E_FAIL, st)

/-- The per-surface body of the disconnection loop of
`Mesh::replace(Vertex*, Surface*)`: check contiguity of the shared run,
splice `toInsert` before the first replaced vertex, take over the child
link, and detach every replaced vertex; returns the replaced vertices. -/
def replaceRunLoop (toInsert toReplace : Nat) :
    Mesh → List Nat → List Nat → Int × Mesh × List Nat
  | st, [], acc => (S_OK, st, acc)
  | st, s :: rest, acc =>
    let labels := contiguousEdgeLabels st s toReplace
    if labels.any (fun l => decide (1 < l)) then (E_FAIL, st, acc)
    else
      let verts := (st.obj s).parents
      let toRemove := (List.range labels.length).filterMap (fun i =>
        if 0 < labels.getD i 0 then some (verts.getD i 0) else none)
      let i0 := match toRemove with
        | [] => verts.length
        | t0 :: _ => verts.indexOf t0
      let verts2 := verts.take i0 ++ toInsert :: verts.drop i0
      let st1 := st.setObj s { st.obj s with parents := verts2 }
      let st2 := st1.setObj toInsert
        { st1.obj toInsert with children := (st1.obj toInsert).children ++ [s] }
      let st3 := toRemove.foldl (fun acc2 v =>
        let a1 := (eraseParentLink acc2 s v).2
        (eraseChildLink a1 v s).2) st2
      replaceRunLoop toInsert toReplace st3 rest (acc ++ toRemove)

/-- The vertex-removal loop at the end of
`Mesh::replace(Vertex*, Surface*)`. -/
def removeVertsLoop (fuel : Nat) : Mesh → List Nat → Int × Mesh
  | st, [] => (S_OK, st)
  | st, v :: rest =>
    let r := Mesh.removeObj fuel st v
    if r.1 ≠ S_OK then (E_FAIL, r.2) else removeVertsLoop fuel r.2 rest

/-- `Mesh::replace(Vertex *toInsert, Surface *toReplace)`. -/
def Mesh.replaceVS (fuel : Nat) (st : Mesh) (toInsert toReplace : Nat) : Int × Mesh :=
  let cs := gatherConnectedSurfaces st toReplace
  match replaceRunLoop toInsert toReplace st cs [] with
  | (hr, st1, totalToRemove) =>
    if hr ≠ S_OK then (E_FAIL, st1)
    else
      let r := Mesh.removeObj fuel st1 toReplace
      if r.1 ≠ S_OK then (E_FAIL, r.2)
      else
        let r2 := removeVertsLoop fuel r.2 totalToRemove
        if r2.1 ≠ S_OK then (E_FAIL, r2.2)
        else
          let r3 := r2.2.addVertex toInsert
          if r3.1 ≠ S_OK then (E_FAIL, r3.2) else (S_OK, r3.2)

/-- Modelled from the spec: `Vertex::sharedSurfaces(other)` — the surfaces
this vertex bounds that `other` also bounds, in this vertex's order. -/
def Mesh.sharedSurfacesOf (st : Mesh) (a b : Nat) : List Nat :=
  ((st.obj a).children).filter (fun s => s ∈ (st.obj b).children)

/-- The adjacency scan of `Mesh::merge(Vertex*, Vertex*, const float&)`
on one shared surface: locate the first boundary index holding either
vertex and demand the cyclically next index hold the other; `true` means
the scan does not fail (it accepts at the first hit, or finds neither). -/
def mergeAdjScan (verts : List Nat) (toKeep toRemove : Nat) : Bool :=
  match (List.range verts.length).find? (fun i =>
      decide (verts.getD i 0 = toKeep ∨ verts.getD i 0 = toRemove)) with
  | none => true
  | some i =>
    let vt := if verts.getD i 0 = toKeep then toRemove else toKeep
    verts.getD ((i + 1) % verts.length) 0 = vt

/-- The child-disconnection loop of `Mesh::merge(Vertex*, Vertex*, ...)`:
for each current child, drop the child link and the mirroring parent
link, failing when a link is missing. -/
def mergeDropChildLinks : Mesh → Nat → List Nat → Int × Mesh
  | st, _, [] => (S_OK, st)
  | st, n, c :: rest =>
    let r1 := eraseChildLink st n c
    if r1.1 ≠ S_OK then (E_FAIL, r1.2)
    else
      let r2 := eraseParentLink r1.2 c n
      if r2.1 ≠ S_OK then (E_FAIL, r2.2) else mergeDropChildLinks r2.2 n rest

/-- `Mesh::merge(Vertex *toKeep, Vertex *toRemove, const float &lenCf)`:
require a shared surface and pass the adjacency scan on the first one;
disconnect and remove `toRemove`; then relocate `toKeep` to
`posKeep + (posRemove − posKeep) · lenCf` (both positions read after the
removal, which does not alter positions). -/
def Mesh.mergeVerts (fuel : Nat) (st : Mesh) (toKeep toRemove : Nat) (lenCf : Rat) :
    Int × Mesh :=
  match st.sharedSurfacesOf toKeep toRemove with
  | [] => (E_FAIL, st)
  | s :: _ =>
    if mergeAdjScan (st.obj s).parents toKeep toRemove = false then (E_FAIL, st)
    else
      let r1 := mergeDropChildLinks st toRemove (st.obj toRemove).children
      if r1.1 ≠ S_OK then (E_FAIL, r1.2)
      else
        let r2 := Mesh.removeObj fuel r1.2 toRemove
        if r2.1 ≠ S_OK then (E_FAIL, r2.2)
        else
          let st2 := r2.2
          let posToKeep := (st2.obj toKeep).pos
          let newPos := Vec3.add posToKeep
            (Vec3.smul lenCf (Vec3.sub (st2.obj toRemove).pos posToKeep))
          (S_OK, st2.setObj toKeep { st2.obj toKeep with pos := newPos })

/-- Cyclic neighbors of vertex `v` on surface `s` (previous, next), by
the first boundary index of `v`.  Modelled from the spec:
`Surface::neighborVertices(v)` lives in `tfSurface.cpp`, absent from the
given sources. -/
def Mesh.surfNeighborPair (st : Mesh) (s v : Nat) : Nat × Nat :=
  let verts := (st.obj s).parents
  let i := verts.indexOf v
  (verts.getD ((i + verts.length - 1) % verts.length) 0,
   verts.getD ((i + 1) % verts.length) 0)

/-- Modelled from the spec: `Vertex::neighborVertices` — the distinct
vertices cyclically adjacent to this vertex on each surface it bounds
(`tfVertex.cpp` is absent from the given sources). -/
def Mesh.neighborVertices (st : Mesh) (v : Nat) : List Nat :=
  ((st.obj v).children).foldl (fun acc s =>
    let p := st.surfNeighborPair s v
    acc ++ ([p.1, p.2].filter (fun x => x ∉ acc))) []

/-- Modelled from the spec: the particle-factory call plus
`new Vertex(ph->id)` — a fresh, unregistered vertex at the given
position. -/
def newVertexAt (st : Mesh) (p : Vec3) : Nat × Mesh :=
  let n := st.nextName
  let st1 := st.setObj n { MObj.blank with kind := .vertex, pos := p }
  (n, { st1 with nextName := n + 1 })

/-- Modelled from the spec: a `SurfaceType` constructor call — a fresh,
unregistered surface whose boundary is the given vertex list, wiring the
vertex-to-surface child links ("its constructor should handle internal
connections"). -/
def newSurface (st : Mesh) (verts : List Nat) : Nat × Mesh :=
  let n := st.nextName
  let st1 := st.setObj n { MObj.blank with kind := .surface, parents := verts }
  let st2 : Mesh := { st1 with nextName := n + 1 }
  (n, verts.foldl (fun acc v =>
    acc.setObj v { acc.obj v with children := (acc.obj v).children ++ [n] }) st2)

/-- Modelled from the spec: a `BodyType` constructor call — a fresh,
unregistered body bounded by the given surfaces, wiring the
surface-to-body child links. -/
def newBody (st : Mesh) (surfs : List Nat) : Nat × Mesh :=
  let n := st.nextName
  let st1 := st.setObj n { MObj.blank with kind := .body, parents := surfs }
  let st2 : Mesh := { st1 with nextName := n + 1 }
  (n, surfs.foldl (fun acc s =>
    acc.setObj s { acc.obj s with children := (acc.obj s).children ++ [n] }) st2)

/-- The per-neighbor loop of
`Mesh::replace(SurfaceType*, Vertex*, std::vector<float>)`: re-check the
coefficient, create a vertex at the interpolated position, and splice it
in via `insert`; accumulates the inserted vertices.  `none` in the first
component is the C++ `return NULL`. -/
def fanLoop (pos0 : Vec3) (toReplace : Nat) :
    Mesh → List (Nat × Rat) → List Nat → Option Unit × Mesh × List Nat
  | st, [], acc => (some (), st, acc)
  | st, (v, cf) :: rest, acc =>
    if cf ≤ 0 ∨ 1 ≤ cf then (none, st, acc)
    else
      let pos1 := (st.obj v).pos
      let pos := Vec3.add pos0 (Vec3.smul cf (Vec3.sub pos1 pos0))
      let r := newVertexAt st pos
      let ri := r.2.insertVert r.1 toReplace v
      if ri.1 ≠ S_OK then (none, ri.2, acc)
      else fanLoop pos0 toReplace ri.2 rest (acc ++ [r.1])

/-- The detachment loop of the fan replace: for every surface of
`toReplace` (snapshot), drop the parent link and the mirroring child
link; the C++ ignores the return values. -/
def detachAllSurfs (st : Mesh) (v : Nat) : Mesh :=
  ((st.obj v).children).foldl (fun acc s =>
    let a1 := (eraseParentLink acc s v).2
    (eraseChildLink a1 v s).2) st

/-- `Mesh::replace(SurfaceType *toInsert, Vertex *toReplace, lenCfs)`:
reject a coefficient count differing from the neighbor count or any
coefficient outside (0,1); then insert one interpolated vertex per
neighbor, detach `toReplace` from all surfaces, build the new surface
from the inserted vertices, remove `toReplace` and add the surface (the
C++ ignores those two results and returns the new surface). -/
def Mesh.replaceFan (fuel : Nat) (st : Mesh) (toReplace : Nat) (lenCfs : List Rat) :
    Option Nat × Mesh :=
  let neighbors := st.neighborVertices toReplace
  if lenCfs.length ≠ neighbors.length then (none, st)
  else if lenCfs.any (fun cf => decide (cf ≤ 0) || decide (1 ≤ cf)) then (none, st)
  else
    let pos0 := (st.obj toReplace).pos
    match fanLoop pos0 toReplace st (neighbors.zip lenCfs) [] with
    | (none, st1, _) => (none, st1)
    | (some _, st1, inserted) =>
      let st2 := detachAllSurfs st1 toReplace
      let r := newSurface st2 inserted
      let st3 := (Mesh.removeObj fuel r.2 toReplace).2
      let st4 := (st3.addSurface r.1).2
      (some r.1, st4)

/-- Modelled from the spec: `Surface::getNormal` — derived geometry
computed on demand from the vertex positions; rendered by the exact
Newell sum over the cyclic boundary (the engine's normalization is a
positive rescaling no settled claim depends on). -/
def Mesh.surfNormal (st : Mesh) (s : Nat) : Vec3 :=
  let verts := (st.obj s).parents
  (List.range verts.length).foldl (fun acc i =>
    Vec3.add acc (Vec3.cross ((st.obj (verts.getD i 0)).pos)
      ((st.obj (verts.getD ((i + 1) % verts.length) 0)).pos))) Vec3.zero

/-- Modelled from the spec: `Surface::refreshBodies` — recompute the
up-to-two owning bodies `b1`, `b2` of a surface from its current body
children. -/
def Mesh.refreshBodies (st : Mesh) (s : Nat) : Mesh :=
  let bodies := ((st.obj s).children).filter (fun b => (st.obj b).kind = .body)
  st.setObj s { st.obj s with b1 := bodies[0]?, b2 := bodies[1]? }

/-- `Mesh_surfaceOutwardNormal(s, b1, b2, onorm)`: when both sides
already bound a body it executes `return NULL;` in a routine typed
`HRESULT`, leaving the out-parameter untouched; otherwise it writes the
(possibly flipped) surface normal and returns `S_OK`. -/
def Mesh_surfaceOutwardNormal (st : Mesh) (s : Nat) (b1 b2 : Option Nat) (onorm : Vec3) :
    Int × Vec3 :=
  match b1, b2 with
  | some _, some _ => (NULLH, onorm)
  | some _, none => (S_OK, st.surfNormal s)
  | none, some _ => (S_OK, Vec3.neg (st.surfNormal s))
  | none, none => (S_OK, st.surfNormal s)

/-- The ring-creation loop of `Mesh::extrude(Surface*, BodyType*, ...)`:
one new vertex per boundary vertex, offset by `disp`. -/
def extrudeNewVerts (st : Mesh) (verts : List Nat) (disp : Vec3) : List Nat × Mesh :=
  verts.foldl (fun acc v =>
    let r := newVertexAt acc.2 (Vec3.add ((acc.2.obj v).pos) disp)
    (acc.1 ++ [r.1], r.2)) ([], st)

/-- The lateral-surface loop of `Mesh::extrude(Surface*, BodyType*, ...)`. -/
def extrudeLateralSurfs (st : Mesh) (baseVerts newVerts : List Nat) :
    List Nat × Mesh :=
  (List.range baseVerts.length).foldl (fun acc i =>
    let j := (i + 1) % baseVerts.length
    let r := newSurface acc.2
      [baseVerts.getD i 0, baseVerts.getD j 0, newVerts.getD j 0, newVerts.getD i 0]
    (acc.1 ++ [r.1], r.2)) ([], st)

/-- `Mesh::extrude(Surface *base, BodyType *btype, const float &normLen)`:
refresh `b1`/`b2`, consult `Mesh_surfaceOutwardNormal` (the local
`FVector3 normal` is zero-initialized), and — unless that check reports
a non-`S_OK` status — build the offset vertex ring, the lateral
surfaces, the cap, and the body, add the body, and return it. -/
def Mesh.extrudeBody (st : Mesh) (base : Nat) (normLen : Rat) :
    Option Nat × Mesh :=
  let st1 := st.refreshBodies base
  let r := Mesh_surfaceOutwardNormal st1 base (st1.obj base).b1 (st1.obj base).b2 Vec3.zero
  if r.1 ≠ S_OK then (none, st1)
  else
    let disp := Vec3.smul normLen r.2
    let bverts := (st1.obj base).parents
    let rv := extrudeNewVerts st1 bverts disp
    let rs := extrudeLateralSurfs rv.2 bverts rv.1
    let rcap := newSurface rs.2 rv.1
    let rb := newBody rcap.2 (rs.1 ++ [base, rcap.1])
    let st2 := (Mesh.addBody rb.2 rb.1).2
    (some rb.1, st2)

/-! ## Constraint actors -/

/-- Modelled from the spec: `Surface::getCentroid` — the mean of the
boundary vertex positions. -/
def Mesh.surfCentroid (st : Mesh) (s : Nat) : Vec3 :=
  let verts := (st.obj s).parents
  Vec3.smul (1 / (verts.length : Rat))
    (verts.foldl (fun acc v => Vec3.add acc (st.obj v).pos) Vec3.zero)

/-- `ConvexPolygonConstraint_acts(vc, s, rel_c2ab)`: inactive for ≤3
boundary vertices or a degenerate neighbor line; otherwise active iff
the perpendicular offsets of the vertex and of the leave-one-out
centroid from the neighbor line have positive dot product.  The unit
direction `lineDir.normalized()` is folded exactly:
`(x·u)u = ((x·d)/(d·d))·d` for `u = d/|d|`. -/
def CPC_acts (st : Mesh) (s vc : Nat) : Bool × Vec3 :=
  if (st.obj s).parents.length ≤ 3 then (false, Vec3.zero)
  else
    let p := st.surfNeighborPair s vc
    let posva := (st.obj p.1).pos
    let posvb := (st.obj p.2).pos
    let posvc := (st.obj vc).pos
    let numVerts : Rat := ((st.obj s).parents.length : Rat)
    let cent_loo := Vec3.smul (1 / (numVerts - 1))
      (Vec3.sub (Vec3.smul numVerts (st.surfCentroid s)) posvc)
    let lineDir := Vec3.sub posvb posva
    if lineDir.isZero then (false, Vec3.zero)
    else
      let dd := Vec3.dot lineDir lineDir
      let rel_c2ab := Vec3.sub (Vec3.add posva
        (Vec3.smul (Vec3.dot (Vec3.sub posvc posva) lineDir / dd) lineDir)) posvc
      let rel_cent2ab := Vec3.sub (Vec3.add posva
        (Vec3.smul (Vec3.dot (Vec3.sub cent_loo posva) lineDir / dd) lineDir)) cent_loo
      (decide (0 < Vec3.dot rel_c2ab rel_cent2ab), rel_c2ab)

/-- The energy term `ConvexPolygonConstraint::energy` adds when active:
`mass/dt · λ/2 · |rel_c2ab|²`. -/
def CPC_energyContrib (dt lam : Rat) (st : Mesh) (s vc : Nat) : Rat :=
  let a := CPC_acts st s vc
  if a.1 then (st.obj vc).mass / dt * lam / 2 * Vec3.dot a.2 a.2 else 0

/-- `ConvexPolygonConstraint::energy(source, target, e)`: `e += ...` when
the constraint acts (`_Engine.dt` and the particle mass enter as
parameters). -/
def CPC_energy (dt lam : Rat) (st : Mesh) (s vc : Nat) (e : Rat) : Rat :=
  let a := CPC_acts st s vc
  if a.1 then e + (st.obj vc).mass / dt * lam / 2 * Vec3.dot a.2 a.2 else e

/-- The force vector `ConvexPolygonConstraint::force` adds when active:
`rel_c2ab · mass/dt · λ`. -/
def CPC_forceContrib (dt lam : Rat) (st : Mesh) (s vc : Nat) : Vec3 :=
  let a := CPC_acts st s vc
  if a.1 then Vec3.smul ((st.obj vc).mass / dt * lam) a.2 else Vec3.zero

/-- `ConvexPolygonConstraint::force(source, target, f)`: `f[i] += ...`
when the constraint acts. -/
def CPC_force (dt lam : Rat) (st : Mesh) (s vc : Nat) (f : Vec3) : Vec3 :=
  let a := CPC_acts st s vc
  if a.1 then Vec3.add f (Vec3.smul ((st.obj vc).mass / dt * lam) a.2) else f

/-- `SurfaceAreaConstraint::energy(source, target, e)`: note the plain
assignment `e = lam * darea * darea` — the passed running total `e` does
not enter the result.  The body's total area (external derived geometry)
enters as the parameter `area`. -/
def SAC_energy (lam constr area : Rat) (_e : Rat) : Rat :=
  lam * (area - constr) * (area - constr)

/-- The value `SurfaceAreaConstraint::energy` stores: `λ (area−target)²`. -/
def SAC_energyValue (lam constr area : Rat) : Rat :=
  lam * (area - constr) * (area - constr)

/-- The last boundary index holding `v`, as the sequential
`if(svertices[idx] == v) idxc = idx;` loop computes it (`idxc` is read
uninitialized when `v` is absent; that case is modelled as 0). -/
def lastIndexOfD (l : List Nat) (v : Nat) : Nat :=
  if v ∈ l then l.length - 1 - l.reverse.indexOf v else 0

/-- The per-surface gradient sum of `SurfaceAreaConstraint::force`:
the cross products of each unit triangle-normal with the edge to the
next vertex, averaged over the vertex count, plus the two terms for the
triangles adjacent to the target vertex.  `tN s i` stands for
`s->triangleNormal(i).normalized()` (external derived geometry, and
irrational; the claims settled here hold for every value of it). -/
def SAC_sftotal (st : Mesh) (tN : Nat → Nat → Vec3) (s v : Nat) : Vec3 :=
  let svertices := (st.obj s).parents
  let m := svertices.length
  let loopSum := (List.range m).foldl (fun acc idx =>
    Vec3.add acc (Vec3.cross (tN s idx)
      (Vec3.sub ((st.obj (svertices.getD ((idx + 1) % m) 0)).pos)
        ((st.obj (svertices.getD idx 0)).pos)))) Vec3.zero
  let sftotal := Vec3.smul (1 / (m : Rat)) loopSum
  let idxc := lastIndexOfD svertices v
  let idxp := if idxc = 0 then m - 1 else idxc - 1
  let idxn := if idxc = m - 1 then 0 else idxc + 1
  let scentroid := st.surfCentroid s
  Vec3.sub
    (Vec3.add sftotal (Vec3.cross (tN s idxc)
      (Vec3.sub scentroid ((st.obj (svertices.getD idxn 0)).pos))))
    (Vec3.cross (tN s idxp)
      (Vec3.sub scentroid ((st.obj (svertices.getD idxp 0)).pos)))

/-- The total gradient `SurfaceAreaConstraint::force` accumulates into
`f`: the per-surface sums over the target vertex's surfaces bounding
`b`, scaled by `λ (target − area)`. -/
def SAC_forceContrib (st : Mesh) (tN : Nat → Nat → Vec3) (lam constr area : Rat)
    (b v : Nat) : Vec3 :=
  let ftotal := ((st.obj v).children).foldl (fun acc s =>
    if s ∈ (st.obj b).parents then Vec3.add acc (SAC_sftotal st tN s v) else acc)
    Vec3.zero
  Vec3.smul (lam * (constr - area)) ftotal

/-- `SurfaceAreaConstraint::force(source, target, f)`: compute the
gradient over the target vertex's surfaces that bound the body
(`s->in(b)`), scale, and `f[i] += ...`. -/
def SAC_force (st : Mesh) (tN : Nat → Nat → Vec3) (lam constr area : Rat)
    (b v : Nat) (f : Vec3) : Vec3 :=
  let ftotal := ((st.obj v).children).foldl (fun acc s =>
    if s ∈ (st.obj b).parents then Vec3.add acc (SAC_sftotal st tN s v) else acc)
    Vec3.zero
  Vec3.add f (Vec3.smul (lam * (constr - area)) ftotal)

/-! ## The inventory invariant (claims C6, C9, C10) -/

theorem E_FAIL_ne_S_OK : E_FAIL ≠ S_OK := by decide

/-- Slot soundness for one variant: a null slot's index is in the
available set; a filled slot holds a live object of this variant whose
stored identifier equals the slot index. -/
def InvSlotsOk (st : Mesh) (k : MKind) : Prop :=
  (∀ i : Nat, (st.inv k)[i]? = some none → i ∈ st.avail k) ∧
  (∀ (i n : Nat), (st.inv k)[i]? = some (some n) →
    (st.obj n).objId = (i : Int) ∧ (st.obj n).kind = k ∧ (st.obj n).inMesh = true)

/-- Available-set soundness: every available id names a null slot. -/
def AvailOk (st : Mesh) (k : MKind) : Prop :=
  ∀ i ∈ st.avail k, (st.inv k)[i]? = some none

/-- Back-reference soundness: every live object sits in the slot of its
own variant's inventory named by its identifier. -/
def StoredBack (st : Mesh) : Prop :=
  ∀ n : Nat, (st.obj n).inMesh = true →
    0 ≤ (st.obj n).objId ∧
    (st.inv (st.obj n).kind)[(st.obj n).objId.toNat]? = some (some n)

/-- The full inventory/identifier invariant of claim C6. -/
def MeshInv (st : Mesh) : Prop :=
  (∀ k, InvSlotsOk st k ∧ AvailOk st k) ∧ StoredBack st

/-- Identifier uniqueness: within one variant's inventory, a live object
occupies exactly one slot. -/
def IdUnique (st : Mesh) : Prop :=
  ∀ (k : MKind) (i j n : Nat),
    (st.inv k)[i]? = some (some n) → (st.inv k)[j]? = some (some n) → i = j

/-- The object graph is well-kinded the way the C++ static types force:
a surface's boundary entries are vertices and a body's bounding entries
are surfaces (`Structure` parents are checked dynamically by
`Mesh::add(Structure*)` itself). -/
def WellKinded (st : Mesh) : Prop :=
  ∀ n : Nat,
    ((st.obj n).kind = .surface → ∀ v ∈ (st.obj n).parents, (st.obj v).kind = .vertex) ∧
    ((st.obj n).kind = .body → ∀ s ∈ (st.obj n).parents, (st.obj s).kind = .surface)

/-- One add or remove call on the mesh, with fuel for the recursive
operations.  The kind guards on the add cases encode the C++ static
overload types (`add(Vertex*)` cannot receive a surface); an untypeable
call leaves the state unchanged. -/
inductive MeshOp where
  | addV (n : Nat)
  | addS (n : Nat)
  | addB (n : Nat)
  | addT (n : Nat) (fuel : Nat)
  | remove (n : Nat) (fuel : Nat)

def MeshOp.step (st : Mesh) : MeshOp → Mesh
  | .addV n => if (st.obj n).kind = .vertex then (st.addVertex n).2 else st
  | .addS n => if (st.obj n).kind = .surface then (st.addSurface n).2 else st
  | .addB n => if (st.obj n).kind = .body then (st.addBody n).2 else st
  | .addT n fuel => if (st.obj n).kind = .struct then (Mesh.addStructure fuel st n).2 else st
  | .remove n fuel => (Mesh.removeObj fuel st n).2

/-- Run a sequence of add/remove calls. -/
def runMeshOps (ops : List MeshOp) (st : Mesh) : Mesh :=
  ops.foldl MeshOp.step st

theorem obj_setObj_self (st : Mesh) (n : Nat) (o : MObj) : (st.setObj n o).obj n = o := by
  simp [Mesh.setObj, Mesh.obj]

theorem obj_setObj_ne (st : Mesh) {n m : Nat} (o : MObj) (h : m ≠ n) :
    (st.setObj n o).obj m = st.obj m := by
  simp [Mesh.setObj, Mesh.obj, Function.update, h]

theorem checkUnstored_eq_sok {st : Mesh} {n : Nat} :
    Mesh_checkUnstoredObj st n = S_OK ↔
      (st.obj n).objId < 0 ∧ (st.obj n).inMesh = false := by
  constructor
  · intro he
    unfold Mesh_checkUnstoredObj at he
    split at he
    · exact absurd he E_FAIL_ne_S_OK
    · rename_i h
      push_neg at h
      refine ⟨h.1, ?_⟩
      cases hb : (st.obj n).inMesh
      · rfl
      · exact absurd hb (by simpa using h.2)
  · intro hc
    unfold Mesh_checkUnstoredObj
    rw [if_neg]
    rintro (h | h)
    · omega
    · rw [hc.2] at h
      exact absurd h (by simp)

theorem checkStored_eq_sok {st : Mesh} {n : Nat} :
    Mesh_checkStoredObj st n = S_OK ↔
      0 ≤ (st.obj n).objId ∧ (st.obj n).inMesh = true := by
  constructor
  · intro he
    unfold Mesh_checkStoredObj at he
    split at he
    · exact absurd he E_FAIL_ne_S_OK
    · rename_i h
      push_neg at h
      refine ⟨h.1, ?_⟩
      cases hb : (st.obj n).inMesh
      · exact absurd hb h.2
      · rfl
  · intro hc
    unfold Mesh_checkStoredObj
    rw [if_neg]
    rintro (h | h)
    · omega
    · rw [hc.2] at h
      exact absurd h (by simp)

theorem invIdAndAlloc_pos {inv : List (Option Nat)} {avail : Finset Nat} {n : Nat}
    (h : avail.Nonempty) :
    Mesh_invIdAndAlloc inv avail n =
      (avail.min' h, inv.set (avail.min' h) (some n), avail.erase (avail.min' h)) := by
  unfold Mesh_invIdAndAlloc
  rw [dif_pos h]

theorem invIdAndAlloc_empty {inv : List (Option Nat)} {avail : Finset Nat} {n : Nat}
    (h : ¬ avail.Nonempty) :
    Mesh_invIdAndAlloc inv avail n =
      (inv.length, inv ++ (some n :: List.replicate (TFMESHINV_INCR - 1) none),
        Finset.Ico (inv.length + 1) (inv.length + TFMESHINV_INCR)) := by
  unfold Mesh_invIdAndAlloc
  rw [dif_neg h]

theorem addObj_fail {st : Mesh} {k : MKind} {n : Nat}
    (h : ¬ ((st.obj n).objId < 0 ∧ (st.obj n).inMesh = false ∧ (st.obj n).valid = true)) :
    Mesh_addObj st k n = (E_FAIL, st) := by
  have hcond : Mesh_checkUnstoredObj st n ≠ S_OK ∨ (st.obj n).valid = false := by
    by_cases hc : Mesh_checkUnstoredObj st n = S_OK
    · rcases checkUnstored_eq_sok.mp hc with ⟨h1, h2⟩
      by_cases hv : (st.obj n).valid = true
      · exact absurd ⟨h1, h2, hv⟩ h
      · right
        cases hvv : (st.obj n).valid
        · rfl
        · exact absurd hvv hv
    · exact Or.inl hc
  unfold Mesh_addObj
  rw [if_pos hcond]

theorem addObj_success {st : Mesh} {k : MKind} {n : Nat}
    (h1 : (st.obj n).objId < 0) (h2 : (st.obj n).inMesh = false)
    (h3 : (st.obj n).valid = true) :
    Mesh_addObj st k n =
      (S_OK,
        let r := Mesh_invIdAndAlloc (st.inv k) (st.avail k) n
        { st with inv := Function.update st.inv k r.2.1,
                  avail := Function.update st.avail k r.2.2,
                  heap := Function.update st.heap n
                    { st.obj n with objId := (r.1 : Int), inMesh := true } }) := by
  have hcond : ¬ (Mesh_checkUnstoredObj st n ≠ S_OK ∨ (st.obj n).valid = false) := by
    push_neg
    exact ⟨checkUnstored_eq_sok.mpr ⟨h1, h2⟩, by simp [h3]⟩
  unfold Mesh_addObj
  rw [if_neg hcond]
  rfl

/-- Two states agreeing on the kind and parent list of every object (the
add/remove operations never change those fields). -/
def SameShape (st st' : Mesh) : Prop :=
  ∀ m : Nat, (st'.obj m).kind = (st.obj m).kind ∧ (st'.obj m).parents = (st.obj m).parents

theorem sameShape_refl (st : Mesh) : SameShape st st := fun _ => ⟨rfl, rfl⟩

theorem sameShape_trans {a b c : Mesh} (h1 : SameShape a b) (h2 : SameShape b c) :
    SameShape a c :=
  fun m => ⟨(h2 m).1.trans (h1 m).1, (h2 m).2.trans (h1 m).2⟩

theorem wellKinded_of_shape {st st' : Mesh} (hs : SameShape st st') (h : WellKinded st) :
    WellKinded st' := by
  intro n
  constructor
  · intro hk v hv
    rw [(hs n).1] at hk
    rw [(hs n).2] at hv
    rw [(hs v).1]
    exact (h n).1 hk v hv
  · intro hk s hv
    rw [(hs n).1] at hk
    rw [(hs n).2] at hv
    rw [(hs s).1]
    exact (h n).2 hk s hv

theorem sameShape_addObj (st : Mesh) (k : MKind) (n : Nat) :
    SameShape st (Mesh_addObj st k n).2 := by
  by_cases hok : (st.obj n).objId < 0 ∧ (st.obj n).inMesh = false ∧ (st.obj n).valid = true
  · obtain ⟨h1, h2, h3⟩ := hok
    rw [addObj_success h1 h2 h3]
    intro m
    by_cases hm : m = n
    · subst hm
      constructor <;> simp [Mesh.obj]
    · constructor <;> simp [Mesh.obj, Function.update, hm]
  · rw [addObj_fail hok]
    exact sameShape_refl st

theorem sameShape_addVertex (st : Mesh) (n : Nat) : SameShape st (st.addVertex n).2 :=
  sameShape_addObj _ .vertex n

theorem sameShape_addSurfaceVerts :
    ∀ (l : List Nat) (st : Mesh), SameShape st (addSurfaceVerts st l).2
  | [], st => sameShape_refl st
  | v :: rest, st => by
    simp only [addSurfaceVerts]
    split
    · split
      · exact sameShape_addVertex st v
      · exact sameShape_trans (sameShape_addVertex st v)
          (sameShape_addSurfaceVerts rest _)
    · exact sameShape_addSurfaceVerts rest st

theorem sameShape_addSurface (st : Mesh) (n : Nat) : SameShape st (st.addSurface n).2 := by
  simp only [Mesh.addSurface]
  split
  · exact sameShape_addSurfaceVerts _ _
  · split
    · refine sameShape_trans ?_ (sameShape_addObj _ .surface n)
      exact sameShape_addSurfaceVerts _ _
    · refine sameShape_trans ?_ (sameShape_addObj _ .surface n)
      exact sameShape_addSurfaceVerts _ _

theorem sameShape_addBodySurfs :
    ∀ (l : List Nat) (st : Mesh), SameShape st (addBodySurfs st l).2
  | [], st => sameShape_refl st
  | s :: rest, st => by
    simp only [addBodySurfs]
    split
    · split
      · exact sameShape_addSurface st s
      · exact sameShape_trans (sameShape_addSurface st s)
          (sameShape_addBodySurfs rest _)
    · exact sameShape_addBodySurfs rest st

theorem sameShape_addBody (st : Mesh) (n : Nat) : SameShape st (st.addBody n).2 := by
  simp only [Mesh.addBody]
  split
  · exact sameShape_addBodySurfs _ _
  · split
    · refine sameShape_trans ?_ (sameShape_addObj _ .body n)
      exact sameShape_addBodySurfs _ _
    · refine sameShape_trans ?_ (sameShape_addObj _ .body n)
      exact sameShape_addBodySurfs _ _

theorem sameShape_addStructParents
    (recf : Mesh → Nat → Int × Mesh)
    (hrec : ∀ st n, SameShape st (recf st n).2) :
    ∀ (l : List Nat) (st : Mesh), SameShape st (addStructParents recf st l).2
  | [], st => sameShape_refl st
  | p :: rest, st => by
    simp only [addStructParents]
    split
    · exact sameShape_addStructParents recf hrec rest st
    · split
      · split
        · exact hrec st p
        · exact sameShape_trans (hrec st p)
            (sameShape_addStructParents recf hrec rest _)
      · split
        · split
          · exact sameShape_addBody st p
          · exact sameShape_trans (sameShape_addBody st p)
              (sameShape_addStructParents recf hrec rest _)
        · exact sameShape_refl st

theorem sameShape_addStructure :
    ∀ (fuel : Nat) (st : Mesh) (n : Nat), SameShape st (Mesh.addStructure fuel st n).2
  | 0, st, _ => sameShape_refl st
  | fuel + 1, st, n => by
    simp only [Mesh.addStructure]
    have hl := sameShape_addStructParents _
      (fun s m => sameShape_addStructure fuel s m)
    split
    · exact hl _ _
    · split
      · refine sameShape_trans ?_ (sameShape_addObj _ .struct n)
        exact hl _ _
      · refine sameShape_trans ?_ (sameShape_addObj _ .struct n)
        exact hl _ _

theorem sameShape_removeChildren
    (recf : Mesh → Nat → Int × Mesh)
    (hrec : ∀ st n, SameShape st (recf st n).2) :
    ∀ (l : List Nat) (st : Mesh), SameShape st ((removeChildren recf st l).2)
  | [], st => sameShape_refl st
  | c :: rest, st => by
    simp only [removeChildren]
    split
    · exact hrec st c
    · exact sameShape_trans (hrec st c) (sameShape_removeChildren recf hrec rest _)

theorem sameShape_removeObj :
    ∀ (fuel : Nat) (st : Mesh) (n : Nat), SameShape st (Mesh.removeObj fuel st n).2
  | 0, st, _ => sameShape_refl st
  | fuel + 1, st, n => by
    simp only [Mesh.removeObj]
    split
    · exact sameShape_refl _
    · split
      · exact sameShape_refl _
      · refine sameShape_trans ?_
          (sameShape_removeChildren _ (fun s m => sameShape_removeObj fuel s m) _ _)
        intro m
        by_cases hm : m = n
        · subst hm
          constructor <;> simp [Mesh.obj, Mesh.setObj]
        · constructor <;> simp [Mesh.obj, Mesh.setObj, Function.update, hm]

theorem not_in_slot_of_unstored {st : Mesh} (hinv : MeshInv st) {n : Nat}
    (h : (st.obj n).inMesh = false) (k : MKind) (j : Nat) :
    (st.inv k)[j]? ≠ some (some n) := by
  intro hj
  have hm := ((hinv.1 k).1.2 j n hj).2.2
  rw [h] at hm
  exact Bool.false_ne_true hm

/-- Invariant preservation for the recycling branch of
`Mesh_invIdAndAlloc` inside `Mesh_addObj`: storing an unstored object
`n` of kind `k` in the free slot `id` keeps the inventory invariant. -/
theorem meshInv_store (st st' : Mesh) (k : MKind) (n id : Nat)
    (hinv : MeshInv st)
    (hk : (st.obj n).kind = k)
    (h2 : (st.obj n).inMesh = false)
    (hinv' : st'.inv = Function.update st.inv k ((st.inv k).set id (some n)))
    (havail' : st'.avail = Function.update st.avail k ((st.avail k).erase id))
    (hheap' : st'.heap = Function.update st.heap n
      { st.obj n with objId := (id : Int), inMesh := true })
    (hidmem : id ∈ st.avail k) :
    MeshInv st' := by
  have hslot : (st.inv k)[id]? = some none := (hinv.1 k).2 id hidmem
  have hlen : id < (st.inv k).length := by
    rcases List.getElem?_eq_some_iff.mp hslot with ⟨hh, _⟩
    exact hh
  have hobjm : ∀ m' : Nat, m' ≠ n → st'.obj m' = st.obj m' := by
    intro m' hm'
    simp [Mesh.obj, hheap', Function.update_noteq hm']
  have hobjn : st'.obj n = { st.obj n with objId := (id : Int), inMesh := true } := by
    simp [Mesh.obj, hheap']
  refine ⟨fun k' => ⟨⟨?_, ?_⟩, ?_⟩, ?_⟩
  · -- null slots are available
    intro i hi
    rw [hinv'] at hi
    rw [havail']
    by_cases hk' : k' = k
    · rw [hk'] at hi ⊢
      rw [Function.update_same] at hi ⊢
      rw [List.getElem?_set] at hi
      by_cases hieq : id = i
      · rw [if_pos hieq, if_pos hlen] at hi
        exact absurd hi (by simp)
      · rw [if_neg hieq] at hi
        exact Finset.mem_erase.mpr ⟨fun hc => hieq hc.symm, (hinv.1 k).1.1 i hi⟩
    · rw [Function.update_noteq hk'] at hi
      rw [Function.update_noteq hk']
      exact (hinv.1 k').1.1 i hi
  · -- filled slots are sound
    intro i m hi
    rw [hinv'] at hi
    by_cases hk' : k' = k
    · rw [hk'] at hi ⊢
      rw [Function.update_same] at hi
      rw [List.getElem?_set] at hi
      by_cases hieq : id = i
      · rw [if_pos hieq, if_pos hlen] at hi
        have hmn : n = m := by simpa using hi
        subst hmn
        rw [hobjn]
        exact ⟨by rw [← hieq], hk, rfl⟩
      · rw [if_neg hieq] at hi
        have hmn : m ≠ n := by
          intro hc
          rw [hc] at hi
          exact not_in_slot_of_unstored hinv h2 k i hi
        rw [hobjm m hmn]
        exact (hinv.1 k).1.2 i m hi
    · rw [Function.update_noteq hk'] at hi
      have hmn : m ≠ n := by
        intro hc
        rw [hc] at hi
        exact not_in_slot_of_unstored hinv h2 k' i hi
      rw [hobjm m hmn]
      exact (hinv.1 k').1.2 i m hi
  · -- available ids are null slots
    intro i hi
    rw [havail'] at hi
    rw [hinv']
    by_cases hk' : k' = k
    · rw [hk'] at hi ⊢
      rw [Function.update_same] at hi ⊢
      obtain ⟨hine, hmem⟩ := Finset.mem_erase.mp hi
      rw [List.getElem?_set, if_neg (fun hc => hine hc.symm)]
      exact (hinv.1 k).2 i hmem
    · rw [Function.update_noteq hk'] at hi
      rw [Function.update_noteq hk']
      exact (hinv.1 k').2 i hi
  · -- back references
    intro m hm
    by_cases hmn : m = n
    · subst hmn
      rw [hobjn]
      refine ⟨Int.ofNat_nonneg _, ?_⟩
      have hkn : ({ st.obj m with objId := (id : Int), inMesh := true } : MObj).kind = k := hk
      rw [hkn, hinv', Function.update_same]
      have ht : (({ st.obj m with objId := (id : Int), inMesh := true } : MObj).objId).toNat = id :=
        Int.toNat_natCast id
      rw [ht]
      rw [List.getElem?_set, if_pos rfl, if_pos hlen]
    · rw [hobjm m hmn] at hm ⊢
      obtain ⟨hge, hsl⟩ := hinv.2 m hm
      refine ⟨hge, ?_⟩
      rw [hinv']
      by_cases hkm : (st.obj m).kind = k
      · rw [hkm, Function.update_same]
        by_cases hidm : id = (st.obj m).objId.toNat
        · exfalso
          rw [hkm] at hsl
          rw [← hidm, hslot] at hsl
          exact absurd hsl (by simp)
        · rw [List.getElem?_set, if_neg hidm]
          rw [hkm] at hsl
          exact hsl
      · rw [Function.update_noteq hkm]
        exact hsl

/-- Invariant preservation for the growth branch of `Mesh_invIdAndAlloc`
inside `Mesh_addObj`: with no id available, the inventory grows by
`TFMESHINV_INCR`, the object lands in the first new slot, and the
remaining new slots become available. -/
theorem meshInv_grow (st st' : Mesh) (k : MKind) (n : Nat)
    (hinv : MeshInv st)
    (hk : (st.obj n).kind = k)
    (h2 : (st.obj n).inMesh = false)
    (hinv' : st'.inv = Function.update st.inv k
      (st.inv k ++ (some n :: List.replicate (TFMESHINV_INCR - 1) none)))
    (havail' : st'.avail = Function.update st.avail k
      (Finset.Ico ((st.inv k).length + 1) ((st.inv k).length + TFMESHINV_INCR)))
    (hheap' : st'.heap = Function.update st.heap n
      { st.obj n with objId := (((st.inv k).length : Nat) : Int), inMesh := true })
    (hav : st.avail k = ∅) :
    MeshInv st' := by
  have hincr : 0 < TFMESHINV_INCR := by decide
  have hobjm : ∀ m' : Nat, m' ≠ n → st'.obj m' = st.obj m' := by
    intro m' hm'
    simp [Mesh.obj, hheap', Function.update_noteq hm']
  have hobjn : st'.obj n =
      { st.obj n with objId := (((st.inv k).length : Nat) : Int), inMesh := true } := by
    simp [Mesh.obj, hheap']
  refine ⟨fun k' => ⟨⟨?_, ?_⟩, ?_⟩, ?_⟩
  · -- null slots are available
    intro i hi
    rw [hinv'] at hi
    rw [havail']
    by_cases hk' : k' = k
    · rw [hk'] at hi ⊢
      rw [Function.update_same] at hi ⊢
      rcases Nat.lt_trichotomy i (st.inv k).length with hlt | heq | hgt
      · rw [List.getElem?_append_left hlt] at hi
        have := (hinv.1 k).1.1 i hi
        rw [hav] at this
        exact absurd this (Finset.not_mem_empty i)
      · rw [heq] at hi
        rw [List.getElem?_append_right (le_refl _)] at hi
        simp at hi
      · rw [List.getElem?_append_right (Nat.le_of_lt hgt)] at hi
        rw [List.getElem?_cons] at hi
        rw [if_neg (by omega)] at hi
        rw [List.getElem?_replicate] at hi
        split at hi
        · rename_i hrange
          rw [Finset.mem_Ico]
          omega
        · exact absurd hi (by simp)
    · rw [Function.update_noteq hk'] at hi
      rw [Function.update_noteq hk']
      exact (hinv.1 k').1.1 i hi
  · -- filled slots are sound
    intro i m hi
    rw [hinv'] at hi
    by_cases hk' : k' = k
    · rw [hk'] at hi ⊢
      rw [Function.update_same] at hi
      rcases Nat.lt_trichotomy i (st.inv k).length with hlt | heq | hgt
      · rw [List.getElem?_append_left hlt] at hi
        have hmn : m ≠ n := by
          intro hc
          rw [hc] at hi
          exact not_in_slot_of_unstored hinv h2 k i hi
        rw [hobjm m hmn]
        exact (hinv.1 k).1.2 i m hi
      · rw [heq] at hi ⊢
        rw [List.getElem?_append_right (le_refl _)] at hi
        simp only [Nat.sub_self, List.getElem?_cons, if_pos rfl] at hi
        have hmn : n = m := by simpa using hi
        subst hmn
        rw [hobjn]
        exact ⟨rfl, hk, rfl⟩
      · rw [List.getElem?_append_right (Nat.le_of_lt hgt)] at hi
        rw [List.getElem?_cons] at hi
        rw [if_neg (by omega)] at hi
        rw [List.getElem?_replicate] at hi
        split at hi
        · exact absurd hi (by simp)
        · exact absurd hi (by simp)
    · rw [Function.update_noteq hk'] at hi
      have hmn : m ≠ n := by
        intro hc
        rw [hc] at hi
        exact not_in_slot_of_unstored hinv h2 k' i hi
      rw [hobjm m hmn]
      exact (hinv.1 k').1.2 i m hi
  · -- available ids are null slots
    intro i hi
    rw [havail'] at hi
    rw [hinv']
    by_cases hk' : k' = k
    · rw [hk'] at hi ⊢
      rw [Function.update_same] at hi ⊢
      rw [Finset.mem_Ico] at hi
      rw [List.getElem?_append_right (by omega)]
      rw [List.getElem?_cons]
      rw [if_neg (by omega)]
      rw [List.getElem?_replicate]
      rw [if_pos (by omega)]
    · rw [Function.update_noteq hk'] at hi
      rw [Function.update_noteq hk']
      exact (hinv.1 k').2 i hi
  · -- back references
    intro m hm
    by_cases hmn : m = n
    · subst hmn
      rw [hobjn]
      refine ⟨Int.ofNat_nonneg _, ?_⟩
      have hkn : ({ st.obj m with
          objId := (((st.inv k).length : Nat) : Int), inMesh := true } : MObj).kind = k := hk
      rw [hkn, hinv', Function.update_same]
      have ht : (({ st.obj m with
          objId := (((st.inv k).length : Nat) : Int), inMesh := true } : MObj).objId).toNat =
          (st.inv k).length := Int.toNat_natCast _
      rw [ht]
      rw [List.getElem?_append_right (le_refl _)]
      simp
    · rw [hobjm m hmn] at hm ⊢
      obtain ⟨hge, hsl⟩ := hinv.2 m hm
      refine ⟨hge, ?_⟩
      rw [hinv']
      by_cases hkm : (st.obj m).kind = k
      · rw [hkm, Function.update_same]
        rw [hkm] at hsl
        have hlt : (st.obj m).objId.toNat < (st.inv k).length := by
          rcases List.getElem?_eq_some_iff.mp hsl with ⟨hh, _⟩
          exact hh
        rw [List.getElem?_append_left hlt]
        exact hsl
      · rw [Function.update_noteq hkm]
        exact hsl

theorem meshInv_addObj {st : Mesh} {k : MKind} {n : Nat}
    (hinv : MeshInv st) (hk : (st.obj n).kind = k) :
    MeshInv (Mesh_addObj st k n).2 := by
  by_cases hok : (st.obj n).objId < 0 ∧ (st.obj n).inMesh = false ∧ (st.obj n).valid = true
  case neg =>
    rw [addObj_fail hok]
    exact hinv
  case pos =>
    obtain ⟨h1, h2, h3⟩ := hok
    by_cases hne : (st.avail k).Nonempty
    · refine meshInv_store st _ k n ((st.avail k).min' hne) hinv hk h2 ?_ ?_ ?_
        (Finset.min'_mem _ hne)
      · rw [addObj_success h1 h2 h3, invIdAndAlloc_pos hne]
      · rw [addObj_success h1 h2 h3, invIdAndAlloc_pos hne]
      · rw [addObj_success h1 h2 h3, invIdAndAlloc_pos hne]
    · refine meshInv_grow st _ k n hinv hk h2 ?_ ?_ ?_
        (Finset.not_nonempty_iff_eq_empty.mp hne)
      · rw [addObj_success h1 h2 h3, invIdAndAlloc_empty hne]
      · rw [addObj_success h1 h2 h3, invIdAndAlloc_empty hne]
      · rw [addObj_success h1 h2 h3, invIdAndAlloc_empty hne]

theorem meshInv_dirty (st : Mesh) (b : Bool) (h : MeshInv st) :
    MeshInv { st with isDirty := b } := h

/-- Invariant preservation for the slot-clearing part of
`Mesh::removeObj`: nulling the stored object's slot, returning its id to
the available set, and clearing its identifier and back-reference keep
the inventory invariant. -/
theorem meshInv_unstore (st st' : Mesh) (k : MKind) (n i : Nat)
    (hinv : MeshInv st)
    (hk : (st.obj n).kind = k)
    (hid : (st.obj n).objId = (i : Int))
    (hm : (st.obj n).inMesh = true)
    (hinv' : st'.inv = Function.update st.inv k ((st.inv k).set i none))
    (havail' : st'.avail = Function.update st.avail k (insert i (st.avail k)))
    (hheap' : st'.heap = Function.update st.heap n
      { st.obj n with objId := -1, inMesh := false }) :
    MeshInv st' := by
  have hsl : (st.inv k)[i]? = some (some n) := by
    have := (hinv.2 n hm).2
    rw [hk, hid, Int.toNat_natCast] at this
    exact this
  have hlen : i < (st.inv k).length := by
    rcases List.getElem?_eq_some_iff.mp hsl with ⟨hh, _⟩
    exact hh
  have hobjm : ∀ m' : Nat, m' ≠ n → st'.obj m' = st.obj m' := by
    intro m' hm'
    simp [Mesh.obj, hheap', Function.update_noteq hm']
  have hobjn : st'.obj n = { st.obj n with objId := -1, inMesh := false } := by
    simp [Mesh.obj, hheap']
  have hnotavail : i ∉ st.avail k := by
    intro hc
    have := (hinv.1 k).2 i hc
    rw [hsl] at this
    exact absurd this (by simp)
  refine ⟨fun k' => ⟨⟨?_, ?_⟩, ?_⟩, ?_⟩
  · -- null slots are available
    intro i' hi
    rw [hinv'] at hi
    rw [havail']
    by_cases hk' : k' = k
    · rw [hk'] at hi ⊢
      rw [Function.update_same] at hi ⊢
      rw [List.getElem?_set] at hi
      by_cases hieq : i = i'
      · rw [hieq]
        exact Finset.mem_insert_self _ _
      · rw [if_neg hieq] at hi
        exact Finset.mem_insert_of_mem ((hinv.1 k).1.1 i' hi)
    · rw [Function.update_noteq hk'] at hi
      rw [Function.update_noteq hk']
      exact (hinv.1 k').1.1 i' hi
  · -- filled slots are sound
    intro i' m hi
    rw [hinv'] at hi
    by_cases hk' : k' = k
    · rw [hk'] at hi ⊢
      rw [Function.update_same] at hi
      rw [List.getElem?_set] at hi
      by_cases hieq : i = i'
      · rw [if_pos hieq, if_pos hlen] at hi
        exact absurd hi (by simp)
      · rw [if_neg hieq] at hi
        have hmn : m ≠ n := by
          intro hc
          rw [hc] at hi
          have := ((hinv.1 k).1.2 i' n hi).1
          rw [hid] at this
          have : i' = i := by
            have := Int.ofNat_inj.mp this.symm
            omega
          exact hieq this.symm
        rw [hobjm m hmn]
        exact (hinv.1 k).1.2 i' m hi
    · rw [Function.update_noteq hk'] at hi
      have hmn : m ≠ n := by
        intro hc
        rw [hc] at hi
        have := ((hinv.1 k').1.2 i' n hi).2.1
        rw [hk] at this
        exact hk' this.symm
      rw [hobjm m hmn]
      exact (hinv.1 k').1.2 i' m hi
  · -- available ids are null slots
    intro i' hi
    rw [havail'] at hi
    rw [hinv']
    by_cases hk' : k' = k
    · rw [hk'] at hi ⊢
      rw [Function.update_same] at hi ⊢
      rcases Finset.mem_insert.mp hi with hieq | hmem
      · rw [hieq]
        rw [List.getElem?_set, if_pos rfl, if_pos hlen]
      · have hieq : i ≠ i' := by
          intro hc
          rw [hc] at hnotavail
          exact hnotavail hmem
        rw [List.getElem?_set, if_neg hieq]
        exact (hinv.1 k).2 i' hmem
    · rw [Function.update_noteq hk'] at hi
      rw [Function.update_noteq hk']
      exact (hinv.1 k').2 i' hi
  · -- back references
    intro m hm'
    by_cases hmn : m = n
    · rw [hmn, hobjn] at hm'
      exact absurd hm' (by simp)
    · rw [hobjm m hmn] at hm' ⊢
      obtain ⟨hge, hslm⟩ := hinv.2 m hm'
      refine ⟨hge, ?_⟩
      rw [hinv']
      by_cases hkm : (st.obj m).kind = k
      · rw [hkm, Function.update_same]
        rw [hkm] at hslm
        have hine : i ≠ (st.obj m).objId.toNat := by
          intro hc
          rw [← hc, hsl] at hslm
          have : n = m := by simpa using hslm
          exact hmn this.symm
        rw [List.getElem?_set, if_neg hine]
        exact hslm
      · rw [Function.update_noteq hkm]
        exact hslm

theorem meshInv_removeChildren
    (recf : Mesh → Nat → Int × Mesh)
    (hrec : ∀ st n, MeshInv st → MeshInv (recf st n).2) :
    ∀ (l : List Nat) (st : Mesh), MeshInv st → MeshInv ((removeChildren recf st l).2)
  | [], _, h => h
  | c :: rest, st, h => by
    simp only [removeChildren]
    split
    · exact hrec st c h
    · exact meshInv_removeChildren recf hrec rest _ (hrec st c h)

theorem meshInv_removeObj :
    ∀ (fuel : Nat) (st : Mesh) (n : Nat), MeshInv st → MeshInv (Mesh.removeObj fuel st n).2
  | 0, _, _, hinv => hinv
  | fuel + 1, st, n, hinv => by
    simp only [Mesh.removeObj]
    split
    · exact meshInv_dirty st true hinv
    · rename_i hc
      split
      · exact meshInv_dirty st true hinv
      · rename_i hb
        have hok := checkStored_eq_sok.mp (not_not.mp hc)
        refine meshInv_removeChildren _
          (fun s m hh => meshInv_removeObj fuel s m hh) _ _ ?_
        refine meshInv_unstore st _ (st.obj n).kind n (st.obj n).objId.toNat hinv rfl
          ?_ ?_ rfl rfl rfl
        · exact (Int.toNat_of_nonneg hok.1).symm
        · exact hok.2

theorem meshInv_addVertex (st : Mesh) (n : Nat) (hinv : MeshInv st)
    (hk : (st.obj n).kind = .vertex) : MeshInv (st.addVertex n).2 := by
  unfold Mesh.addVertex
  exact meshInv_addObj hinv hk

theorem meshInv_addSurfaceVerts :
    ∀ (l : List Nat) (st : Mesh), MeshInv st →
      (∀ v ∈ l, (st.obj v).kind = .vertex) → MeshInv (addSurfaceVerts st l).2
  | [], _, h, _ => h
  | v :: rest, st, h, hks => by
    simp only [addSurfaceVerts]
    split
    · split
      · exact meshInv_addVertex st v h (hks v (List.mem_cons_self v rest))
      · refine meshInv_addSurfaceVerts rest _
          (meshInv_addVertex st v h (hks v (List.mem_cons_self v rest))) ?_
        intro v' hv'
        rw [((sameShape_addVertex st v) v').1]
        exact hks v' (List.mem_cons_of_mem v hv')
    · exact meshInv_addSurfaceVerts rest st h
        (fun v' hv' => hks v' (List.mem_cons_of_mem v hv'))

theorem meshInv_addSurface (st : Mesh) (n : Nat) (hinv : MeshInv st)
    (hwk : WellKinded st) (hk : (st.obj n).kind = .surface) :
    MeshInv (st.addSurface n).2 := by
  simp only [Mesh.addSurface]
  split
  · exact meshInv_addSurfaceVerts _ _ hinv ((hwk n).1 hk)
  · split
    · refine meshInv_addObj (meshInv_addSurfaceVerts _ _ hinv ((hwk n).1 hk)) ?_
      rw [((sameShape_addSurfaceVerts _ _) n).1]
      exact hk
    · refine meshInv_addObj (meshInv_addSurfaceVerts _ _ hinv ((hwk n).1 hk)) ?_
      rw [((sameShape_addSurfaceVerts _ _) n).1]
      exact hk

theorem meshInv_addBodySurfs :
    ∀ (l : List Nat) (st : Mesh), MeshInv st → WellKinded st →
      (∀ s ∈ l, (st.obj s).kind = .surface) → MeshInv (addBodySurfs st l).2
  | [], _, h, _, _ => h
  | s :: rest, st, h, hwk, hks => by
    simp only [addBodySurfs]
    split
    · split
      · exact meshInv_addSurface st s h hwk (hks s (List.mem_cons_self s rest))
      · refine meshInv_addBodySurfs rest _
          (meshInv_addSurface st s h hwk (hks s (List.mem_cons_self s rest)))
          (wellKinded_of_shape (sameShape_addSurface st s) hwk) ?_
        intro s' hs'
        rw [((sameShape_addSurface st s) s').1]
        exact hks s' (List.mem_cons_of_mem s hs')
    · exact meshInv_addBodySurfs rest st h hwk
        (fun s' hs' => hks s' (List.mem_cons_of_mem s hs'))

theorem meshInv_addBody (st : Mesh) (n : Nat) (hinv : MeshInv st)
    (hwk : WellKinded st) (hk : (st.obj n).kind = .body) :
    MeshInv (st.addBody n).2 := by
  simp only [Mesh.addBody]
  split
  · exact meshInv_addBodySurfs _ _ hinv hwk ((hwk n).2 hk)
  · split
    · refine meshInv_addObj (meshInv_addBodySurfs _ _ hinv hwk ((hwk n).2 hk)) ?_
      rw [((sameShape_addBodySurfs _ _) n).1]
      exact hk
    · refine meshInv_addObj (meshInv_addBodySurfs _ _ hinv hwk ((hwk n).2 hk)) ?_
      rw [((sameShape_addBodySurfs _ _) n).1]
      exact hk

theorem meshInv_addStructParents
    (recf : Mesh → Nat → Int × Mesh)
    (hshape : ∀ st n, SameShape st (recf st n).2)
    (hrec : ∀ st n, (st.obj n).kind = .struct → MeshInv st → WellKinded st →
      MeshInv (recf st n).2) :
    ∀ (l : List Nat) (st : Mesh), MeshInv st → WellKinded st →
      MeshInv (addStructParents recf st l).2
  | [], _, h, _ => h
  | p :: rest, st, h, hwk => by
    simp only [addStructParents]
    split
    · exact meshInv_addStructParents recf hshape hrec rest st h hwk
    · split
      · rename_i hstruct
        split
        · exact hrec st p hstruct h hwk
        · exact meshInv_addStructParents recf hshape hrec rest _
            (hrec st p hstruct h hwk)
            (wellKinded_of_shape (hshape st p) hwk)
      · split
        · rename_i hbody
          split
          · exact meshInv_addBody st p h hwk hbody
          · exact meshInv_addStructParents recf hshape hrec rest _
              (meshInv_addBody st p h hwk hbody)
              (wellKinded_of_shape (sameShape_addBody st p) hwk)
        · exact h

theorem meshInv_addStructure :
    ∀ (fuel : Nat) (st : Mesh) (n : Nat), (st.obj n).kind = .struct →
      MeshInv st → WellKinded st → MeshInv (Mesh.addStructure fuel st n).2
  | 0, _, _, _, hinv, _ => hinv
  | fuel + 1, st, n, hk, hinv, hwk => by
    simp only [Mesh.addStructure]
    have hloop := meshInv_addStructParents (fun s m => Mesh.addStructure fuel s m)
      (fun s m => sameShape_addStructure fuel s m)
      (fun s m hsk hi hw => meshInv_addStructure fuel s m hsk hi hw)
    have hshape := sameShape_addStructParents (fun s m => Mesh.addStructure fuel s m)
      (fun s m => sameShape_addStructure fuel s m)
    split
    · exact hloop _ _ hinv hwk
    · split
      · refine meshInv_addObj (hloop _ _ hinv hwk) ?_
        rw [((hshape _ _) n).1]
        exact hk
      · refine meshInv_addObj (hloop _ _ hinv hwk) ?_
        rw [((hshape _ _) n).1]
        exact hk

theorem sameShape_step (st : Mesh) (op : MeshOp) : SameShape st (MeshOp.step st op) := by
  cases op <;> simp only [MeshOp.step]
  case addV n =>
    split
    · exact sameShape_addVertex st n
    · exact sameShape_refl st
  case addS n =>
    split
    · exact sameShape_addSurface st n
    · exact sameShape_refl st
  case addB n =>
    split
    · exact sameShape_addBody st n
    · exact sameShape_refl st
  case addT n fuel =>
    split
    · exact sameShape_addStructure fuel st n
    · exact sameShape_refl st
  case remove n fuel =>
    exact sameShape_removeObj fuel st n

theorem meshInv_step (st : Mesh) (op : MeshOp) (hinv : MeshInv st) (hwk : WellKinded st) :
    MeshInv (MeshOp.step st op) := by
  cases op <;> simp only [MeshOp.step]
  case addV n =>
    split
    · rename_i hk
      exact meshInv_addVertex st n hinv hk
    · exact hinv
  case addS n =>
    split
    · rename_i hk
      exact meshInv_addSurface st n hinv hwk hk
    · exact hinv
  case addB n =>
    split
    · rename_i hk
      exact meshInv_addBody st n hinv hwk hk
    · exact hinv
  case addT n fuel =>
    split
    · rename_i hk
      exact meshInv_addStructure fuel st n hk hinv hwk
    · exact hinv
  case remove n fuel =>
    exact meshInv_removeObj fuel st n hinv

theorem meshInv_runMeshOps :
    ∀ (ops : List MeshOp) (st : Mesh), MeshInv st → WellKinded st →
      MeshInv (runMeshOps ops st)
  | [], _, hinv, _ => hinv
  | op :: rest, st, hinv, hwk =>
    meshInv_runMeshOps rest (MeshOp.step st op)
      (meshInv_step st op hinv hwk)
      (wellKinded_of_shape (sameShape_step st op) hwk)

theorem idUnique_of_meshInv {st : Mesh} (h : MeshInv st) : IdUnique st := by
  intro k i j n hi hj
  have h1 := ((h.1 k).1.2 i n hi).1
  have h2 := ((h.1 k).1.2 j n hj).1
  rw [h1] at h2
  exact Int.ofNat_inj.mp h2

theorem meshInv_init (heap0 : Nat → MObj) (h0 : ∀ n, (heap0 n).inMesh = false) :
    MeshInv (Mesh.init heap0) := by
  refine ⟨fun k => ⟨⟨?_, ?_⟩, ?_⟩, ?_⟩
  · intro i hi
    simp [Mesh.init] at hi
  · intro i m hi
    simp [Mesh.init] at hi
  · intro i hi
    simp [Mesh.init] at hi
  · intro m hm
    rw [show (Mesh.init heap0).obj m = heap0 m from rfl] at hm
    rw [h0 m] at hm
    exact absurd hm (by simp)

/-- C6: for every sequence of add and remove calls on one mesh — started
from empty inventories over a heap of unregistered objects whose graph
is well-kinded, as the C++ static types force — the inventory invariant
holds: each slot is either null with its index in the available set, or
holds exactly one live object whose stored identifier equals the slot
index, and (`IdUnique`) no two live objects of the same variant share an
identifier. -/
theorem C6_identifier_uniqueness (heap0 : Nat → MObj) (ops : List MeshOp)
    (h0 : ∀ n, (heap0 n).inMesh = false)
    (hwk0 : WellKinded (Mesh.init heap0)) :
    MeshInv (runMeshOps ops (Mesh.init heap0)) ∧
    IdUnique (runMeshOps ops (Mesh.init heap0)) := by
  have hinv := meshInv_runMeshOps ops _ (meshInv_init heap0 h0) hwk0
  exact ⟨hinv, idUnique_of_meshInv hinv⟩

/-- Witness for C6 on a concrete four-call sequence. -/
theorem C6_identifier_uniqueness_witness :
    MeshInv (runMeshOps [MeshOp.addV 0, MeshOp.addV 1, MeshOp.remove 0 5, MeshOp.addV 2]
      (Mesh.init fun _ => MObj.blank)) ∧
    IdUnique (runMeshOps [MeshOp.addV 0, MeshOp.addV 1, MeshOp.remove 0 5, MeshOp.addV 2]
      (Mesh.init fun _ => MObj.blank)) :=
  C6_identifier_uniqueness (fun _ => MObj.blank)
    [MeshOp.addV 0, MeshOp.addV 1, MeshOp.remove 0 5, MeshOp.addV 2]
    (fun _ => rfl)
    (fun _ => ⟨fun h => MKind.noConfusion h, fun h => MKind.noConfusion h⟩)

/-- The concrete mesh of the C9 counterexample: clean dirty flag, one
object that is already stored (so adding it must fail). -/
def cex9 : Mesh :=
  { heap := fun _ => { MObj.blank with objId := 0, inMesh := true },
    nextName := 1, inv := fun _ => [some 0], avail := fun _ => ∅,
    isDirty := false, hasSolver := false, solverDirty := false }

/-- C9 counterexample: `Mesh::add(Vertex*)` on an already-stored vertex
fails, yet the dirty flag — part of the mesh state — is changed by the
failing call, contradicting "validate all their failure conditions
before mutating any Mesh state ... the dirty flag [is] exactly as before
the call". -/
theorem C9_counterexample :
    (cex9.addVertex 0).1 = E_FAIL ∧ cex9.isDirty = false ∧
    (cex9.addVertex 0).2.isDirty = true := by
  refine ⟨?_, rfl, ?_⟩ <;> rfl

/-- C9 (amended): `Mesh::add(Vertex*)` and `Mesh::removeObj` validate
their failure conditions before touching the inventories, available-id
sets, and stored objects, but both set the mesh dirty flag (and `add`
forwards `setDirty` to an attached solver) unconditionally on entry, so
a failing call leaves the state unchanged *except* for those dirty
signals. -/
theorem C9_validate_before_mutate_amended :
    (∀ (st : Mesh) (n : Nat), (st.addVertex n).1 ≠ S_OK →
      (st.addVertex n).2 =
        { st with isDirty := true, solverDirty := st.hasSolver || st.solverDirty }) ∧
    (∀ (fuel : Nat) (st : Mesh) (n : Nat),
      (Mesh_checkStoredObj st n ≠ S_OK ∨
        (st.inv (st.obj n).kind).length ≤ (st.obj n).objId.toNat) →
      (Mesh.removeObj (fuel + 1) st n).2 = { st with isDirty := true }) := by
  constructor
  · intro st n h
    unfold Mesh.addVertex at h ⊢
    by_cases hok : (st.obj n).objId < 0 ∧ (st.obj n).inMesh = false ∧
        (st.obj n).valid = true
    · exfalso
      have hs := @addObj_success
        { st with isDirty := true, solverDirty := st.hasSolver || st.solverDirty }
        MKind.vertex n hok.1 hok.2.1 hok.2.2
      rw [hs] at h
      exact h rfl
    · have hf := @addObj_fail
        { st with isDirty := true, solverDirty := st.hasSolver || st.solverDirty }
        MKind.vertex n hok
      rw [hf]
  · intro fuel st n h
    simp only [Mesh.removeObj]
    split
    · rfl
    · rename_i hc
      split
      · rfl
      · rename_i hb
        exfalso
        have hok := not_not.mp hc
        rcases h with h | h
        · exact h hok
        · exact hb h

/-- Witness for C9's amended statement: the failing add of `cex9` and a
remove whose identifier is out of the (empty-slot) inventory bounds. -/
theorem C9_validate_before_mutate_amended_witness :
    (cex9.addVertex 0).2 =
      { cex9 with isDirty := true, solverDirty := cex9.hasSolver || cex9.solverDirty } ∧
    (Mesh.removeObj 4 { cex9 with inv := fun _ => [] } 0).2 =
      { { cex9 with inv := fun _ => [] } with isDirty := true } := by
  constructor
  · exact C9_validate_before_mutate_amended.1 cex9 0 (by decide)
  · exact C9_validate_before_mutate_amended.2 3 { cex9 with inv := fun _ => [] } 0
      (Or.inr (by decide))

theorem findVertexAux_ok {st : Mesh} {p : Vec3} {tol : Rat} :
    ∀ l : List (Option Nat), (∀ s ∈ l, s ≠ none) →
      ∃ r, findVertexAux st p tol l = .ok r
  | [], _ => ⟨none, rfl⟩
  | none :: _, h => absurd rfl (h none (List.mem_cons_self _ _))
  | some n :: rest, h => by
    simp only [findVertexAux]
    split
    · exact ⟨some n, rfl⟩
    · exact findVertexAux_ok rest (fun s hs => h s (List.mem_cons_of_mem _ hs))

theorem findVertexAux_error {st : Mesh} {p : Vec3} :
    ∀ l : List (Option Nat), none ∈ l →
      findVertexAux st p (-1) l = .error ()
  | none :: _, _ => rfl
  | some n :: rest, h => by
    have hrest : none ∈ rest := by
      rcases List.mem_cons.mp h with h1 | h1
      · exact absurd h1.symm (by simp)
      · exact h1
    simp only [findVertexAux]
    rw [if_neg]
    · exact findVertexAux_error rest hrest
    · simp [vertexWithin]

theorem none_mem_set (l : List (Option Nat)) (i : Nat) : none ∈ l → none ∈ l.set i none := by
  intro h
  by_cases hl : i < l.length
  · exact List.mem_set l i hl none
  · rw [List.set_eq_of_length_le (le_of_not_lt hl)]
    exact h

theorem none_mem_removeChildren
    (recf : Mesh → Nat → Int × Mesh) (k : MKind)
    (hrec : ∀ st n, none ∈ st.inv k → none ∈ (recf st n).2.inv k) :
    ∀ (l : List Nat) (st : Mesh), none ∈ st.inv k →
      none ∈ ((removeChildren recf st l).2).inv k
  | [], _, h => h
  | c :: rest, st, h => by
    simp only [removeChildren]
    split
    · exact hrec st c h
    · exact none_mem_removeChildren recf k hrec rest _ (hrec st c h)

theorem none_mem_removeObj :
    ∀ (fuel : Nat) (st : Mesh) (n : Nat) (k : MKind), none ∈ st.inv k →
      none ∈ (Mesh.removeObj fuel st n).2.inv k
  | 0, _, _, _, h => h
  | fuel + 1, st, n, k, h => by
    simp only [Mesh.removeObj]
    split
    · exact h
    · split
      · exact h
      · refine none_mem_removeChildren _ k
          (fun s m hh => none_mem_removeObj fuel s m k hh) _ _ ?_
        show none ∈ Function.update st.inv (st.obj n).kind
          ((st.inv (st.obj n).kind).set (st.obj n).objId.toNat none) k
        by_cases hk : k = (st.obj n).kind
        · rw [hk, Function.update_same]
          exact none_mem_set _ _ (hk ▸ h)
        · rw [Function.update_noteq hk]
          exact h

theorem removeObj_ok_null_slot :
    ∀ (fuel : Nat) (st : Mesh) (n : Nat), (Mesh.removeObj fuel st n).1 = S_OK →
      (st.obj n).kind = .vertex → none ∈ (Mesh.removeObj fuel st n).2.inv .vertex
  | 0, _, _, hs, _ => absurd hs E_FAIL_ne_S_OK
  | fuel + 1, st, n, hs, hk => by
    rw [show (Mesh.removeObj (fuel + 1) st n) =
      (Mesh.removeObj (fuel + 1) st n) from rfl] at hs
    revert hs
    simp only [Mesh.removeObj]
    split
    · intro hs
      exact absurd hs E_FAIL_ne_S_OK
    · rename_i hc
      split
      · intro hs
        exact absurd hs E_FAIL_ne_S_OK
      · rename_i hb
        intro _
        have hok := checkStored_eq_sok.mp (not_not.mp hc)
        refine none_mem_removeChildren _ .vertex
          (fun s m hh => none_mem_removeObj fuel s m .vertex hh) _ _ ?_
        show none ∈ Function.update st.inv (st.obj n).kind
          ((st.inv (st.obj n).kind).set (st.obj n).objId.toNat none) .vertex
        rw [hk, Function.update_same]
        have hlt : (st.obj n).objId.toNat < (st.inv .vertex).length := by
          rw [← hk]
          exact lt_of_not_ge hb
        exact List.mem_set _ _ hlt none

/-- C10: `Mesh::findVertex` dereferences every slot it scans, so it is
fault-free exactly on states whose vertex inventory has no null slot;
one recycled (null) slot makes the null-dereference branch reachable
(e.g. with a negative tolerance nothing ever matches); any successful
vertex removal produces such a null slot; in contrast the
`getVertex`/`getSurface`/`getBody`/`getStructure` accessors return null
for every out-of-bounds index instead of faulting. -/
theorem C10_findVertex_null_deref :
    (∀ (st : Mesh) (p : Vec3) (tol : Rat), (∀ s ∈ st.inv .vertex, s ≠ none) →
      ∃ r, st.findVertex p tol = .ok r) ∧
    (∀ st : Mesh, none ∈ st.inv .vertex →
      ∃ (p : Vec3) (tol : Rat), st.findVertex p tol = .error ()) ∧
    (∀ (fuel : Nat) (st : Mesh) (n : Nat), (Mesh.removeObj fuel st n).1 = S_OK →
      (st.obj n).kind = .vertex → none ∈ (Mesh.removeObj fuel st n).2.inv .vertex) ∧
    (∀ (st : Mesh) (k : MKind) (idx : Nat), (st.inv k).length ≤ idx →
      st.getPart k idx = none) := by
  refine ⟨?_, ?_, removeObj_ok_null_slot, ?_⟩
  · intro st p tol h
    exact findVertexAux_ok _ h
  · intro st h
    exact ⟨Vec3.zero, -1, findVertexAux_error _ h⟩
  · intro st k idx h
    unfold Mesh.getPart
    rw [if_neg (not_lt.mpr h)]

/-- Witness for C10 on concrete one-slot inventories. -/
theorem C10_findVertex_null_deref_witness :
    (∃ r, Mesh.findVertex cex9 Vec3.zero 0 = .ok r) ∧
    (∃ (p : Vec3) (tol : Rat),
      Mesh.findVertex { cex9 with inv := fun _ => [none] } p tol = .error ()) ∧
    none ∈ (Mesh.removeObj 3 cex9 0).2.inv .vertex ∧
    Mesh.getPart cex9 .vertex 7 = none := by
  refine ⟨?_, ?_, ?_, ?_⟩
  · exact C10_findVertex_null_deref.1 cex9 Vec3.zero 0 (by decide)
  · exact C10_findVertex_null_deref.2.1 _ (by decide)
  · exact C10_findVertex_null_deref.2.2.1 3 cex9 0 (by decide) (by decide)
  · exact C10_findVertex_null_deref.2.2.2 cex9 .vertex 7 (by decide)

/-- C1: the mechanism at the failing input.  `NULLH` (the C++ `NULL`
returned by `Mesh_surfaceOutwardNormal` when both sides already bound a
body) is numerically `S_OK`, so `Mesh::extrude(Surface*, BodyType*, ...)`
does not detect the failure: on every surface whose refreshed `b1`/`b2`
are both non-null it proceeds and returns a constructed (non-null) body,
contradicting "the operation fails ... rather than proceeding to build a
Body". -/
theorem C1_extrude_both_bounded_proceeds :
    NULLH = S_OK ∧
    (∀ (st : Mesh) (s b1 b2 : Nat) (onorm : Vec3),
      Mesh_surfaceOutwardNormal st s (some b1) (some b2) onorm = (NULLH, onorm)) ∧
    (∀ (st : Mesh) (base : Nat) (normLen : Rat),
      2 ≤ (((st.obj base).children).filter (fun b => (st.obj b).kind = .body)).length →
      (st.extrudeBody base normLen).1.isSome = true) := by
  refine ⟨rfl, fun st s b1 b2 onorm => rfl, ?_⟩
  intro st base normLen hlen
  simp only [Mesh.extrudeBody]
  have hb1 : ((st.refreshBodies base).obj base).b1 =
      (((st.obj base).children).filter (fun b => (st.obj b).kind = .body))[0]? := by
    simp only [Mesh.refreshBodies]
    rw [obj_setObj_self]
  have hb2 : ((st.refreshBodies base).obj base).b2 =
      (((st.obj base).children).filter (fun b => (st.obj b).kind = .body))[1]? := by
    simp only [Mesh.refreshBodies]
    rw [obj_setObj_self]
  have hx0 : (((st.obj base).children).filter (fun b => (st.obj b).kind = .body))[0]? =
      some ((((st.obj base).children).filter
        (fun b => (st.obj b).kind = .body)).get ⟨0, by omega⟩) :=
    List.getElem?_eq_getElem (by omega)
  have hx1 : (((st.obj base).children).filter (fun b => (st.obj b).kind = .body))[1]? =
      some ((((st.obj base).children).filter
        (fun b => (st.obj b).kind = .body)).get ⟨1, by omega⟩) :=
    List.getElem?_eq_getElem (by omega)
  rw [hb1, hx0, hb2, hx1]
  simp only [Mesh_surfaceOutwardNormal]
  rw [if_neg (not_not_intro (show NULLH = S_OK from rfl))]
  rfl

theorem gatherInner_nil (toReplace : Nat) :
    ∀ l : List Nat,
      l.foldl (fun acc2 s => if s ≠ toReplace ∧ s ∈ acc2 then acc2 ++ [s] else acc2)
        [] = []
  | [] => rfl
  | s :: rest => by
    simp only [List.foldl_cons]
    rw [if_neg (fun hc => List.not_mem_nil s hc.2)]
    exact gatherInner_nil toReplace rest

/-- The connected-surface gather of `Mesh::replace(Vertex*, Surface*)`
is always empty: its `std::find` acceptance condition is inverted, so a
surface is recorded only if it is already recorded. -/
theorem gatherConnectedSurfaces_nil (st : Mesh) (toReplace : Nat) :
    gatherConnectedSurfaces st toReplace = [] := by
  unfold gatherConnectedSurfaces
  generalize (st.obj toReplace).parents = vl
  induction vl with
  | nil => rfl
  | cons v rest ih =>
    simp only [List.foldl_cons]
    rw [gatherInner_nil toReplace]
    exact ih

def cex2inv : MKind → List (Option Nat)
  | .vertex => [some 0, some 1, some 2, some 3]
  | .surface => [some 10, some 11]
  | _ => []

/-- The heap of the C2 evaluation mesh: surface 11 shares the contiguous
boundary run 1,2 with surface 10; vertex 20 is the fresh replacement. -/
def cex2heap : Nat → MObj
  | 10 => { MObj.blank with kind := .surface, objId := 0, inMesh := true, parents := [0, 1, 2] }
  | 11 => { MObj.blank with kind := .surface, objId := 1, inMesh := true, parents := [1, 2, 3] }
  | 0 => { MObj.blank with objId := 0, inMesh := true, children := [10] }
  | 1 => { MObj.blank with objId := 1, inMesh := true, children := [10, 11] }
  | 2 => { MObj.blank with objId := 2, inMesh := true, children := [10, 11] }
  | 3 => { MObj.blank with objId := 3, inMesh := true, children := [11] }
  | _ => MObj.blank

def cex2 : Mesh :=
  { heap := cex2heap, nextName := 21, inv := cex2inv, avail := fun _ => ∅,
    isDirty := false, hasSolver := false, solverDirty := false }

/-- C2: `Mesh::replace(Vertex*, Surface*)` never gathers any connected
surface (the `std::find` condition in the gathering loop is inverted),
so no splice happens: on the concrete mesh `cex2`, where surface 11
shares the contiguous run 1,2 with the replaced surface 10, the call
reports success, yet surface 11 keeps its boundary `[1, 2, 3]` — the
new vertex 20 is never spliced in — and the shared vertex 1 is still
stored, contradicting the claimed splice-and-detach behavior. -/
theorem C2_replace_never_splices :
    (∀ (st : Mesh) (s : Nat), gatherConnectedSurfaces st s = []) ∧
    (Mesh.replaceVS 9 cex2 20 10).1 = S_OK ∧
    ((Mesh.replaceVS 9 cex2 20 10).2.obj 11).parents = [1, 2, 3] ∧
    ((20 : Nat) ∉ ((Mesh.replaceVS 9 cex2 20 10).2.obj 11).parents) ∧
    ((Mesh.replaceVS 9 cex2 20 10).2.obj 1).objId = 1 := by
  refine ⟨gatherConnectedSurfaces_nil, ?_, ?_, ?_, ?_⟩ <;> decide

/-- C5: `Mesh::replace(SurfaceType*, Vertex*, lenCfs)` rejects a
coefficient count differing from the neighbor count, and any coefficient
≤ 0 or ≥ 1, before any mutation: the failing call returns null and the
mesh state — inventories, available sets, heap, positions, flags — is
exactly the input state. -/
theorem C5_fan_replace_rejects (fuel : Nat) (st : Mesh) (v : Nat) (lenCfs : List Rat)
    (h : lenCfs.length ≠ (st.neighborVertices v).length ∨
      ∃ cf ∈ lenCfs, cf ≤ 0 ∨ 1 ≤ cf) :
    Mesh.replaceFan fuel st v lenCfs = (none, st) := by
  unfold Mesh.replaceFan
  by_cases hlen : lenCfs.length ≠ (st.neighborVertices v).length
  · rw [if_pos hlen]
  · rw [if_neg hlen]
    rcases h with h | h
    · exact absurd h hlen
    · rw [if_pos]
      rw [List.any_eq_true]
      rcases h with ⟨cf, hmem, hcf⟩
      refine ⟨cf, hmem, ?_⟩
      rcases hcf with hcf | hcf <;> simp [hcf]

/-- Witness for C5: one coefficient against zero neighbors (count
mismatch), and a coefficient 2 outside (0,1). -/
theorem C5_fan_replace_rejects_witness :
    Mesh.replaceFan 3 cex9 0 [(1 : Rat)/2] = (none, cex9) ∧
    Mesh.replaceFan 3 cex2 1 [(2 : Rat), 2] = (none, cex2) := by
  constructor
  · exact C5_fan_replace_rejects 3 cex9 0 [(1 : Rat)/2] (Or.inl (by decide))
  · exact C5_fan_replace_rejects 3 cex2 1 [(2 : Rat), 2]
      (Or.inr ⟨2, List.mem_cons_self _ _, Or.inr (by norm_num)⟩)

/-- Two states agreeing on identifier, back-reference, kind, and
position of every object (the link-erasing loops change only
parent/child lists). -/
def SameCore (st st' : Mesh) : Prop :=
  ∀ m : Nat, (st'.obj m).objId = (st.obj m).objId ∧
    (st'.obj m).inMesh = (st.obj m).inMesh ∧
    (st'.obj m).kind = (st.obj m).kind ∧
    (st'.obj m).pos = (st.obj m).pos

theorem sameCore_refl (st : Mesh) : SameCore st st := fun _ => ⟨rfl, rfl, rfl, rfl⟩

theorem sameCore_trans {a b c : Mesh} (h1 : SameCore a b) (h2 : SameCore b c) :
    SameCore a c := fun m =>
  ⟨(h2 m).1.trans (h1 m).1, (h2 m).2.1.trans (h1 m).2.1,
   (h2 m).2.2.1.trans (h1 m).2.2.1, (h2 m).2.2.2.trans (h1 m).2.2.2⟩

theorem sameCore_setLinks {st : Mesh} {n : Nat} {p c : List Nat} :
    SameCore st (st.setObj n { st.obj n with parents := p, children := c }) := by
  intro m
  by_cases hm : m = n
  · subst hm
    rw [obj_setObj_self]
    exact ⟨rfl, rfl, rfl, rfl⟩
  · rw [obj_setObj_ne _ _ hm]
    exact ⟨rfl, rfl, rfl, rfl⟩

/-- The trace of the child-disconnection loop of
`Mesh::merge(Vertex*, Vertex*, ...)`: run on exactly the (duplicate-free)
child list of `n`, with every link mirrored and `n` not its own child,
it succeeds, clears `n`'s child list, and touches only parent/child
lists of the heap — inventories and available sets are untouched. -/
theorem dropLinks_trace :
    ∀ (l : List Nat) (st : Mesh) (n : Nat),
      (st.obj n).children = l → (∀ c ∈ l, n ∈ (st.obj c).parents) →
      l.Nodup → n ∉ l →
      (mergeDropChildLinks st n l).1 = S_OK ∧
      SameCore st (mergeDropChildLinks st n l).2 ∧
      ((mergeDropChildLinks st n l).2.obj n).children = [] ∧
      (mergeDropChildLinks st n l).2.inv = st.inv ∧
      (mergeDropChildLinks st n l).2.avail = st.avail
  | [], st, n, hch, _, _, _ => ⟨rfl, sameCore_refl st, hch, rfl, rfl⟩
  | c :: rest, st, n, hch, hpar, hnd, hns => by
    have hcn : c ≠ n := fun hc => hns (hc ▸ List.mem_cons_self c rest)
    have hmemc : c ∈ (st.obj n).children := hch ▸ List.mem_cons_self c rest
    simp only [mergeDropChildLinks]
    rw [eraseChildLink, if_pos hmemc]
    set st1 := st.setObj n
      { st.obj n with children := (st.obj n).children.erase c } with hst1
    have hobj1n : st1.obj n = { st.obj n with children := (st.obj n).children.erase c } :=
      obj_setObj_self st n _
    have hobj1c : st1.obj c = st.obj c := obj_setObj_ne st _ hcn
    have hmemp : n ∈ (st1.obj c).parents := by
      rw [hobj1c]
      exact hpar c (List.mem_cons_self c rest)
    rw [if_neg (not_not_intro rfl)]
    rw [eraseParentLink, if_pos hmemp]
    set st2 := st1.setObj c
      { st1.obj c with parents := (st1.obj c).parents.erase n } with hst2
    rw [if_neg (not_not_intro rfl)]
    have hch2 : (st2.obj n).children = rest := by
      rw [obj_setObj_ne st1 _ (fun hc => hcn hc.symm), hobj1n]
      show ((st.obj n).children).erase c = rest
      rw [hch]
      exact List.erase_cons_head c rest
    have hpar2 : ∀ c' ∈ rest, n ∈ (st2.obj c').parents := by
      intro c' hc'
      have hc'c : c' ≠ c := fun hcc => (List.nodup_cons.mp hnd).1 (hcc ▸ hc')
      have hc'n : c' ≠ n := fun hcc => hns (hcc ▸ List.mem_cons_of_mem c hc')
      rw [obj_setObj_ne st1 _ hc'c]
      rw [obj_setObj_ne st _ hc'n]
      exact hpar c' (List.mem_cons_of_mem c hc')
    obtain ⟨r1, r2, r3, r4, r5⟩ := dropLinks_trace rest st2 n hch2 hpar2
      (List.nodup_cons.mp hnd).2 (fun hc => hns (List.mem_cons_of_mem c hc))
    refine ⟨r1, ?_, r3, r4.trans rfl, r5.trans rfl⟩
    have hc1 : SameCore st st1 := sameCore_setLinks
    have hc2 : SameCore st1 st2 := sameCore_setLinks
    exact sameCore_trans hc1 (sameCore_trans hc2 r2)

/-- The full adjacency gate of `Mesh::merge(Vertex*, Vertex*, ...)`:
a shared surface must exist and the scan on the first one must not
reject. -/
def mergeAdjCheck (st : Mesh) (toKeep toRemove : Nat) : Bool :=
  match st.sharedSurfacesOf toKeep toRemove with
  | [] => false
  | s :: _ => mergeAdjScan (st.obj s).parents toKeep toRemove

theorem removeChildren_of_children_nil {recf : Mesh → Nat → Int × Mesh}
    {st : Mesh} {l : List Nat} (hl : l = []) :
    removeChildren recf st l = (S_OK, st) := by
  subst hl
  rfl

/-- Success-path facts for `Mesh::removeObj` on a stored object with no
children: the call succeeds; only the object itself changes in the heap
(identifier cleared, back-reference dropped); its variant's inventory
slot is nulled and the id returned to the available set. -/
theorem removeObj_noChildren_facts (fuel : Nat) (st : Mesh) (n : Nat)
    (h1 : 0 ≤ (st.obj n).objId) (h2 : (st.obj n).inMesh = true)
    (hbnd : (st.obj n).objId.toNat < (st.inv (st.obj n).kind).length)
    (hch : (st.obj n).children = []) :
    (Mesh.removeObj (fuel + 1) st n).1 = S_OK ∧
    (∀ m : Nat, m ≠ n → (Mesh.removeObj (fuel + 1) st n).2.obj m = st.obj m) ∧
    ((Mesh.removeObj (fuel + 1) st n).2.obj n) =
      { st.obj n with objId := -1, inMesh := false } ∧
    (Mesh.removeObj (fuel + 1) st n).2.inv =
      Function.update st.inv ((st.obj n).kind)
        ((st.inv ((st.obj n).kind)).set ((st.obj n).objId.toNat) none) := by
  simp only [Mesh.removeObj]
  split
  · rename_i hcond
    exact absurd (checkStored_eq_sok.mpr ⟨h1, h2⟩) hcond
  · split
    · rename_i hble
      exact absurd hble (not_le.mpr hbnd)
    · rw [removeChildren_of_children_nil]
      · refine ⟨rfl, ?_, ?_, ?_⟩
        · intro m hm
          rw [obj_setObj_ne _ _ hm]
          rfl
        · rw [obj_setObj_self]
          rfl
        · rfl
      · rw [obj_setObj_self]
        exact hch

theorem mergeVerts_fail_of_check (fuel : Nat) (st : Mesh) (toKeep toRemove : Nat)
    (lenCf : Rat) (h : mergeAdjCheck st toKeep toRemove = false) :
    (Mesh.mergeVerts fuel st toKeep toRemove lenCf).1 = E_FAIL := by
  simp only [Mesh.mergeVerts]
  split
  · rfl
  · rename_i s ss hsh
    unfold mergeAdjCheck at h
    rw [hsh] at h
    rw [if_pos h]

/-- The success trace of `Mesh::merge(Vertex*, Vertex*, const float&)`
on a stored, link-consistent `toRemove` once the adjacency gate passes:
the call succeeds, `toKeep` ends at `posKeep + (posRemove − posKeep)·cf`
over the pre-merge positions, `toRemove` ends unregistered, and the
vertex inventory slot of `toRemove` is nulled while all other
inventories are untouched. -/
theorem mergeVerts_success_facts (fuel : Nat) (st : Mesh) (toKeep toRemove : Nat)
    (lenCf : Rat)
    (ha1 : 0 ≤ (st.obj toRemove).objId) (ha2 : (st.obj toRemove).inMesh = true)
    (ha3 : (st.obj toRemove).kind = .vertex)
    (ha4 : (st.obj toRemove).objId.toNat < (st.inv .vertex).length)
    (hlink : ∀ c ∈ (st.obj toRemove).children, toRemove ∈ (st.obj c).parents)
    (hnd : (st.obj toRemove).children.Nodup)
    (hns : toRemove ∉ (st.obj toRemove).children)
    (hcheck : mergeAdjCheck st toKeep toRemove = true) :
    (Mesh.mergeVerts (fuel + 1) st toKeep toRemove lenCf).1 = S_OK ∧
    (toKeep ≠ toRemove →
      ((Mesh.mergeVerts (fuel + 1) st toKeep toRemove lenCf).2.obj toKeep).pos =
        Vec3.add (st.obj toKeep).pos
          (Vec3.smul lenCf (Vec3.sub (st.obj toRemove).pos (st.obj toKeep).pos))) ∧
    (toKeep ≠ toRemove →
      ((Mesh.mergeVerts (fuel + 1) st toKeep toRemove lenCf).2.obj toRemove).objId = -1 ∧
      ((Mesh.mergeVerts (fuel + 1) st toKeep toRemove lenCf).2.obj toRemove).inMesh = false) ∧
    (Mesh.mergeVerts (fuel + 1) st toKeep toRemove lenCf).2.inv =
      Function.update st.inv .vertex
        ((st.inv .vertex).set ((st.obj toRemove).objId.toNat) none) := by
  simp only [Mesh.mergeVerts]
  split
  · rename_i hnil
    exfalso
    unfold mergeAdjCheck at hcheck
    rw [hnil] at hcheck
    exact Bool.false_ne_true hcheck
  · rename_i s ss hsh
    have hscan : mergeAdjScan (st.obj s).parents toKeep toRemove = true := by
      unfold mergeAdjCheck at hcheck
      rw [hsh] at hcheck
      exact hcheck
    have hcond : ¬ (mergeAdjScan (st.obj s).parents toKeep toRemove = false) := by
      rw [hscan]
      simp
    rw [if_neg hcond]
    obtain ⟨hdl1, hdlCore, hdlCh, hdlInv, hdlAvail⟩ :=
      dropLinks_trace (st.obj toRemove).children st toRemove rfl hlink hnd hns
    rw [if_neg (not_not_intro hdl1)]
    have h1' : 0 ≤ ((mergeDropChildLinks st toRemove
        (st.obj toRemove).children).2.obj toRemove).objId := by
      rw [(hdlCore toRemove).1]
      exact ha1
    have h2' : ((mergeDropChildLinks st toRemove
        (st.obj toRemove).children).2.obj toRemove).inMesh = true := by
      rw [(hdlCore toRemove).2.1]
      exact ha2
    have hb' : ((mergeDropChildLinks st toRemove
        (st.obj toRemove).children).2.obj toRemove).objId.toNat <
        ((mergeDropChildLinks st toRemove (st.obj toRemove).children).2.inv
          (((mergeDropChildLinks st toRemove
            (st.obj toRemove).children).2.obj toRemove).kind)).length := by
      rw [(hdlCore toRemove).1, (hdlCore toRemove).2.2.1, ha3, hdlInv]
      exact ha4
    obtain ⟨hr1, hrm, hrn, hrinv⟩ := removeObj_noChildren_facts fuel
      (mergeDropChildLinks st toRemove (st.obj toRemove).children).2 toRemove h1' h2' hb' hdlCh
    rw [if_neg (not_not_intro hr1)]
    refine ⟨rfl, ?_, ?_, ?_⟩
    · intro hkr
      rw [obj_setObj_self]
      dsimp only
      rw [hrm toKeep hkr, hrn]
      dsimp only
      rw [(hdlCore toKeep).2.2.2, (hdlCore toRemove).2.2.2]
    · intro hkr
      have hne : toRemove ≠ toKeep := fun hc => hkr hc.symm
      rw [obj_setObj_ne _ _ hne, hrn]
      exact ⟨rfl, rfl⟩
    · show (Mesh.setObj _ _ _).inv = _
      rw [show ∀ (x : Mesh) (n : Nat) (o : MObj), (Mesh.setObj x n o).inv = x.inv
        from fun _ _ _ => rfl]
      rw [hrinv]
      rw [(hdlCore toRemove).2.2.1, ha3, (hdlCore toRemove).1, hdlInv]

/-- The spec's stated success condition for
`Mesh::merge(Vertex*, Vertex*, const float&)`, written from the spec's
words for comparison with the implementation: the two vertices share at
least one Surface and are cyclically adjacent on it, in either cyclic
position, including the wrap-around pair of last and first boundary
index. -/
def specCyclicallyAdjacent (st : Mesh) (a b : Nat) : Bool :=
  (st.sharedSurfacesOf a b).any (fun s =>
    let verts := (st.obj s).parents
    (List.range verts.length).any (fun i =>
      (decide (verts.getD i 0 = a) &&
        decide (verts.getD ((i + 1) % verts.length) 0 = b)) ||
      (decide (verts.getD i 0 = b) &&
        decide (verts.getD ((i + 1) % verts.length) 0 = a))))

def cex3inv : MKind → List (Option Nat)
  | .vertex => [some 0, some 1, some 2]
  | .surface => [some 30]
  | _ => []

/-- The heap of the C3/C4 evaluation mesh: one triangular surface 30
with boundary 0, 1, 2; vertices 0 and 2 are cyclically adjacent only
through the wrap-around pair (last index 2 followed by first index 0). -/
def cex3heap : Nat → MObj
  | 30 => { MObj.blank with kind := .surface, objId := 0, inMesh := true, parents := [0, 1, 2] }
  | 0 => { MObj.blank with objId := 0, inMesh := true, pos := ⟨0, 0, 0⟩, children := [30] }
  | 1 => { MObj.blank with objId := 1, inMesh := true, pos := ⟨1, 0, 0⟩, children := [30] }
  | 2 => { MObj.blank with objId := 2, inMesh := true, pos := ⟨0, 1, 0⟩, children := [30] }
  | _ => MObj.blank

def cex3 : Mesh :=
  { heap := cex3heap, nextName := 31, inv := cex3inv, avail := fun _ => ∅,
    isDirty := false, hasSolver := false, solverDirty := false }

/-- C3 counterexample: on mesh `cex3`, vertices 0 and 2 share surface 30
and are cyclically adjacent on it through the wrap-around pair (boundary
index 2 is followed cyclically by index 0), so the claim says the merge
succeeds; but the implementation's scan stops at the first boundary
index holding either vertex (index 0, holding vertex 0) and demands the
immediate successor (index 1, holding vertex 1) be the other vertex, so
`merge(0, 2, cf)` is rejected. -/
theorem C3_counterexample :
    specCyclicallyAdjacent cex3 0 2 = true ∧
    30 ∈ cex3.sharedSurfacesOf 0 2 ∧
    (Mesh.mergeVerts 3 cex3 0 2 0).1 = E_FAIL := by
  refine ⟨?_, ?_, ?_⟩ <;> decide

/-- C3 (amended): on a stored, link-consistent `toRemove`,
`Mesh::merge(toKeep, toRemove, cf)` succeeds exactly when the shared
surfaces are non-empty and, on the FIRST shared surface, the first
boundary index holding either vertex (if any) is immediately followed
cyclically by the other vertex — the scan never reconsiders later
occurrences, later shared surfaces, or the wrap-around pairing of a
first occurrence that failed. -/
theorem C3_merge_adjacency_amended (fuel : Nat) (st : Mesh)
    (toKeep toRemove : Nat) (lenCf : Rat)
    (ha1 : 0 ≤ (st.obj toRemove).objId) (ha2 : (st.obj toRemove).inMesh = true)
    (ha3 : (st.obj toRemove).kind = .vertex)
    (ha4 : (st.obj toRemove).objId.toNat < (st.inv .vertex).length)
    (hlink : ∀ c ∈ (st.obj toRemove).children, toRemove ∈ (st.obj c).parents)
    (hnd : (st.obj toRemove).children.Nodup)
    (hns : toRemove ∉ (st.obj toRemove).children) :
    (Mesh.mergeVerts (fuel + 1) st toKeep toRemove lenCf).1 = S_OK ↔
      mergeAdjCheck st toKeep toRemove = true := by
  constructor
  · intro h
    cases hcb : mergeAdjCheck st toKeep toRemove with
    | false =>
      exfalso
      have hf := mergeVerts_fail_of_check (fuel + 1) st toKeep toRemove lenCf hcb
      rw [h] at hf
      exact E_FAIL_ne_S_OK hf.symm
    | true => rfl
  · intro h
    exact (mergeVerts_success_facts fuel st toKeep toRemove lenCf
      ha1 ha2 ha3 ha4 hlink hnd hns h).1

/-- Witness for the amended C3: on `cex3`, vertices 0 and 1 are adjacent
at the scan's first hit, so `merge(0, 1, 0)` succeeds. -/
theorem C3_merge_adjacency_amended_witness :
    (Mesh.mergeVerts 3 cex3 0 1 0).1 = S_OK := by
  exact (C3_merge_adjacency_amended 2 cex3 0 1 0 (by decide) (by decide)
    (by decide) (by decide) (by decide) (by decide) (by decide)).mpr (by decide)

/-- C4: for every successful `Mesh::merge(toKeep, toRemove, lenCf)` on a
stored, link-consistent `toRemove` whose identifier indexes its only
vertex-inventory slot and which sits in no other inventory, `toKeep`'s
final position is `posKeep + (posRemove − posKeep) · lenCf` over the two
pre-merge positions — with `lenCf = 1/2` exactly the midpoint — and
`toRemove` afterwards has identifier −1, is not in the mesh, and is
absent from every inventory. -/
theorem C4_merge_midpoint (fuel : Nat) (st : Mesh) (toKeep toRemove : Nat)
    (lenCf : Rat) (hkr : toKeep ≠ toRemove)
    (ha1 : 0 ≤ (st.obj toRemove).objId) (ha2 : (st.obj toRemove).inMesh = true)
    (ha3 : (st.obj toRemove).kind = .vertex)
    (ha4 : (st.obj toRemove).objId.toNat < (st.inv .vertex).length)
    (hlink : ∀ c ∈ (st.obj toRemove).children, toRemove ∈ (st.obj c).parents)
    (hnd : (st.obj toRemove).children.Nodup)
    (hns : toRemove ∉ (st.obj toRemove).children)
    (hcheck : mergeAdjCheck st toKeep toRemove = true)
    (honly : ∀ i < (st.inv .vertex).length,
      (st.inv .vertex)[i]? = some (some toRemove) → i = (st.obj toRemove).objId.toNat)
    (hnoS : some toRemove ∉ st.inv .surface)
    (hnoB : some toRemove ∉ st.inv .body)
    (hnoT : some toRemove ∉ st.inv .struct) :
    (Mesh.mergeVerts (fuel + 1) st toKeep toRemove lenCf).1 = S_OK ∧
    ((Mesh.mergeVerts (fuel + 1) st toKeep toRemove lenCf).2.obj toKeep).pos =
      Vec3.add (st.obj toKeep).pos
        (Vec3.smul lenCf (Vec3.sub (st.obj toRemove).pos (st.obj toKeep).pos)) ∧
    (lenCf = 1/2 →
      ((Mesh.mergeVerts (fuel + 1) st toKeep toRemove lenCf).2.obj toKeep).pos =
        Vec3.smul (1/2) (Vec3.add (st.obj toKeep).pos (st.obj toRemove).pos)) ∧
    ((Mesh.mergeVerts (fuel + 1) st toKeep toRemove lenCf).2.obj toRemove).objId = -1 ∧
    ((Mesh.mergeVerts (fuel + 1) st toKeep toRemove lenCf).2.obj toRemove).inMesh = false ∧
    ∀ (k : MKind) (i : Nat),
      ((Mesh.mergeVerts (fuel + 1) st toKeep toRemove lenCf).2.inv k)[i]? ≠
        some (some toRemove) := by
  obtain ⟨h1, hpos, hflag, hinv⟩ :=
    mergeVerts_success_facts fuel st toKeep toRemove lenCf ha1 ha2 ha3 ha4 hlink hnd hns hcheck
  refine ⟨h1, hpos hkr, ?_, (hflag hkr).1, (hflag hkr).2, ?_⟩
  · intro hcf
    rw [hpos hkr, hcf]
    generalize (st.obj toKeep).pos = p
    generalize (st.obj toRemove).pos = q
    cases p
    cases q
    simp only [Vec3.add, Vec3.smul, Vec3.sub, Vec3.mk.injEq]
    refine ⟨?_, ?_, ?_⟩ <;> ring
  · intro k i
    rw [hinv]
    cases k with
    | vertex =>
      rw [Function.update_same]
      by_cases hi : i = (st.obj toRemove).objId.toNat
      · subst hi
        rw [List.getElem?_set_self ha4]
        intro hc
        exact Option.noConfusion (Option.some.inj hc)
      · rw [List.getElem?_set_ne (fun h => hi h.symm)]
        intro hc
        obtain ⟨hlt, -⟩ := List.getElem?_eq_some_iff.mp hc
        exact hi (honly i hlt hc)
    | surface =>
      rw [Function.update_noteq (fun h => MKind.noConfusion h)]
      intro hc
      exact hnoS (List.getElem?_mem hc)
    | body =>
      rw [Function.update_noteq (fun h => MKind.noConfusion h)]
      intro hc
      exact hnoB (List.getElem?_mem hc)
    | struct =>
      rw [Function.update_noteq (fun h => MKind.noConfusion h)]
      intro hc
      exact hnoT (List.getElem?_mem hc)

/-- Witness for C4: `merge(0, 1, 1/2)` on `cex3` succeeds, moves vertex
0 to the midpoint of the two pre-merge positions, clears vertex 1's
identifier, and leaves vertex 1 in no inventory slot. -/
theorem C4_merge_midpoint_witness :
    (Mesh.mergeVerts 3 cex3 0 1 ((1 : Rat)/2)).1 = S_OK ∧
    ((Mesh.mergeVerts 3 cex3 0 1 ((1 : Rat)/2)).2.obj 0).pos =
      Vec3.smul ((1 : Rat)/2) (Vec3.add (cex3.obj 0).pos (cex3.obj 1).pos) ∧
    ((Mesh.mergeVerts 3 cex3 0 1 ((1 : Rat)/2)).2.obj 1).objId = -1 ∧
    ((Mesh.mergeVerts 3 cex3 0 1 ((1 : Rat)/2)).2.inv MKind.vertex)[1]? ≠
      some (some 1) := by
  obtain ⟨h1, -, hmid, hid, -, habs⟩ := C4_merge_midpoint 2 cex3 0 1 ((1 : Rat)/2)
    (by decide) (by decide) (by decide) (by decide) (by decide) (by decide)
    (by decide) (by decide) (by decide) (by decide) (by decide) (by decide)
    (by decide)
  exact ⟨h1, hmid rfl, hid, habs .vertex 1⟩

theorem Vec3.add_zero (v : Vec3) : Vec3.add v Vec3.zero = v := by
  cases v
  simp [Vec3.add, Vec3.zero]

/-- C7 counterexample: `SurfaceAreaConstraint::energy` overwrites the
running total instead of accumulating into it — with λ = 1, target area
0, actual area 1 and prior total 5 it returns 1, not 5 + 1. -/
theorem C7_counterexample :
    SAC_energy 1 0 1 5 ≠ 5 + SAC_energyValue 1 0 1 := by
  norm_num [SAC_energy, SAC_energyValue]

/-- C7 (amended): the convex-polygon constraint's `energy` and `force`
and the surface-area constraint's `force` accumulate into the passed
running total (result = prior + contribution), but the surface-area
constraint's `energy` performs a plain assignment `e = λ·Δarea²`: its
result is the contribution alone, independent of the passed total. -/
theorem C7_actor_accumulation_amended (dt lam constr area : Rat) (st : Mesh)
    (tN : Nat → Nat → Vec3) (s vc b v : Nat) (e : Rat) (f g : Vec3) :
    CPC_energy dt lam st s vc e = e + CPC_energyContrib dt lam st s vc ∧
    CPC_force dt lam st s vc f = Vec3.add f (CPC_forceContrib dt lam st s vc) ∧
    SAC_force st tN lam constr area b v g =
      Vec3.add g (SAC_forceContrib st tN lam constr area b v) ∧
    SAC_energy lam constr area e = SAC_energyValue lam constr area := by
  refine ⟨?_, ?_, rfl, rfl⟩
  · simp only [CPC_energy, CPC_energyContrib]
    cases h : (CPC_acts st s vc).1 <;> simp [h]
  · simp only [CPC_force, CPC_forceContrib]
    cases h : (CPC_acts st s vc).1 <;> simp [h, Vec3.add_zero]

/-- C8: whenever the surface has at most 3 boundary vertices, or the
line through the target vertex's two cyclic neighbors is degenerate
(zero direction), `ConvexPolygonConstraint_acts` reports inactive and
both `energy` and `force` return their accumulators unchanged — zero
contribution regardless of positions. -/
theorem C8_convex_polygon_inactive (dt lam : Rat) (st : Mesh) (s vc : Nat)
    (e : Rat) (f : Vec3)
    (h : (st.obj s).parents.length ≤ 3 ∨
      (Vec3.sub (st.obj (st.surfNeighborPair s vc).2).pos
        (st.obj (st.surfNeighborPair s vc).1).pos).isZero = true) :
    (CPC_acts st s vc).1 = false ∧
    CPC_energy dt lam st s vc e = e ∧
    CPC_force dt lam st s vc f = f := by
  have hacts : (CPC_acts st s vc).1 = false := by
    simp only [CPC_acts]
    rcases h with h | h
    · rw [if_pos h]
    · by_cases hlen : (st.obj s).parents.length ≤ 3
      · rw [if_pos hlen]
      · rw [if_neg hlen, if_pos h]
  refine ⟨hacts, ?_, ?_⟩
  · simp only [CPC_energy]
    rw [if_neg (fun hc => Bool.false_ne_true (hacts.symm.trans hc))]
  · simp only [CPC_force]
    rw [if_neg (fun hc => Bool.false_ne_true (hacts.symm.trans hc))]

/-- Witness for C8: surface 30 of `cex3` has exactly 3 boundary
vertices, so the constraint is inactive there and leaves the
accumulators 7 and zero unchanged. -/
theorem C8_convex_polygon_inactive_witness :
    (CPC_acts cex3 30 0).1 = false ∧
    CPC_energy 1 1 cex3 30 0 7 = 7 ∧
    CPC_force 1 1 cex3 30 0 Vec3.zero = Vec3.zero := by
  exact C8_convex_polygon_inactive 1 1 cex3 30 0 7 Vec3.zero (Or.inl (by decide))
